import Mathlib

/-!
# NTP client with rule-based daylight saving time (src/NTP.cpp)

A shallow embedding of the class `NTP` of src/NTP.cpp.

* The object is the record `NTP`; every member function is a function on that record.
* The collaborators (the UDP transport and the tick counter `millis()`) are the record
  `World`: the k-th call of `millis()` returns `clock k`, the k-th call of
  `udp->parsePacket()` finds `datagram k`, reports its length and leaves it to be read.
* `uint32_t` values are naturals below `UINT32`, with wrap-around written out
  (`add32`, `sub32`); `uint8_t` values are reduced modulo 256; `time_t` and `int`
  are integers (a 64 bit `time_t`, which none of the computations below overflows).
* NTP.h is not among the sources. The widths of the data members follow the member
  functions (`uint32_t ntp()`, `uint32_t utc()`, `updateInterval(uint32_t)`, the
  `uint8_t size` of the loop) and the spec (32 bit tick and NTP timestamp); instants
  are `time_t`, offsets and the cached year are integers; the constants are numbers.
* The polling loop of `ntpUpdate` runs on fuel: one unit per iteration.
* `gmtime` and `mktime` are the C library calendar functions in the UTC zone of the
  target (no TZ set), over the proleptic Gregorian calendar.
* `calcDateDST` declares `struct tm tm;` and hands it to `mktime` without assigning
  `tm_isdst`, which `mktime` reads. The value the field holds is an extra argument of
  `calcDateDST`; `beginDST`, `currentTime`, the accessors and `init` take the values
  their calls of `calcDateDST` find (`Unassigned`). Statements that hold whatever the
  field holds are quantified over these arguments. `mktime` answers a positive
  `tm_isdst` in the UTC zone with the instant one hour earlier, as the GNU C library
  does; a library that ignores the field behaves as this one does on the value 0, so
  the quantified statements cover it.
* Arguments of `int8_t` parameters are integers narrowed by `int8`.
-/

namespace NTPClient

/-! ## Machine arithmetic -/

/-- Number of values of a `uint32_t`. -/
def UINT32 : Nat := 4294967296

/-- Unsigned 32 bit subtraction `a - b`. -/
def sub32 (a b : Nat) : Nat := (a + (UINT32 - b % UINT32)) % UINT32

/-- Unsigned 32 bit addition `a + b`. -/
def add32 (a b : Nat) : Nat := (a + b) % UINT32

/-! ## Constants declared in NTP.h -/

/-- Modelled from the spec: `SEVENTYYEARS` of NTP.h (the header is not among the sources),
the number of seconds between the NTP epoch 1900-01-01 and the Unix epoch 1970-01-01. -/
def SEVENTYYEARS : Nat := 2208988800

/-- Modelled from the spec: `NTP_PACKET_SIZE` of NTP.h, the 48 bytes of an NTP payload. -/
def NTP_PACKET_SIZE : Nat := 48

/-- Modelled from the spec: `SECS_PER_MINUTES` of NTP.h, seconds in a minute. -/
def SECS_PER_MINUTES : Int := 60

/-- Modelled from the spec: `SECS_PER_DAY` of NTP.h, seconds in a day. -/
def SECS_PER_DAY : Int := 86400

/-- Modelled from the spec: the characters `strncpy` keeps of a rule name, one less
than the size of the bounded buffer `tzName` of NTP.h. -/
def TZNAME_CHARS : Nat := 5

/-! ## The C library calendar (UTC) -/

/-- The fields of `struct tm`. -/
structure Tm where
  tm_sec : Int
  tm_min : Int
  tm_hour : Int
  tm_mday : Int
  tm_mon : Int
  tm_year : Int
  tm_wday : Int
  tm_yday : Int
  tm_isdst : Int
deriving DecidableEq, Repr

/-- Gregorian leap year. -/
def isleap (y : Int) : Bool :=
  y % 4 == 0 && (y % 100 != 0 || y % 400 == 0)

/-- Days of a common year before the first of month `mon` (0 = January). -/
def daysBeforeMonth (mon : Int) : Int :=
  ([0, 31, 59, 90, 120, 151, 181, 212, 243, 273, 304, 334] : List Int).getD mon.toNat 0

/-- Length of month `mon` (0 = January) of `year`. -/
def daysInMonth (year mon : Int) : Int :=
  if mon = 1 ∧ isleap year then 29
  else ([31, 28, 31, 30, 31, 30, 31, 31, 30, 31, 30, 31] : List Int).getD mon.toNat 0

/-- Days from 1970-01-01 to January 1 of `year`. -/
def daysBeforeYear (year : Int) : Int :=
  365 * (year - 1970) + ((year - 1) / 4 - (year - 1) / 100 + (year - 1) / 400) - 477

/-- Days from 1970-01-01 to day `mday` of month `mon` (0 = January) of `year`. -/
def daysFromCivil (year mon mday : Int) : Int :=
  daysBeforeYear year + daysBeforeMonth mon
    + (if isleap year ∧ 2 ≤ mon then 1 else 0) + (mday - 1)

/-- Year of the 400 year era from the day of the era (eras start on March 1). -/
def erayearOf (eraday : Int) : Int :=
  (eraday - eraday / 1460 + eraday / 36524 - eraday / 146096) / 365

/-- Modelled from the spec: the external calendar break-down `gmtime`
(`civilFromUtcSeconds`): seconds since 1970-01-01T00:00:00 to civil fields, month
0-based, weekday 0 = Sunday, `tm_year` counted from 1900. -/
def gmtime (t : Int) : Tm :=
  let days := t / 86400 + 719468
  let rem := t % 86400
  let era := days / 146097
  let eraday := days - era * 146097
  let erayear := erayearOf eraday
  let yearday := eraday - (365 * erayear + erayear / 4 - erayear / 100)
  let month := (5 * yearday + 2) / 153
  let day := yearday - (153 * month + 2) / 5 + 1
  let mon := if month < 10 then month + 2 else month - 10
  let year := erayear + era * 400 + (if mon ≤ 1 then 1 else 0)
  { tm_sec := rem % 60
    tm_min := rem % 3600 / 60
    tm_hour := rem / 3600
    tm_mday := day
    tm_mon := mon
    tm_year := year - 1900
    tm_wday := (days + 3) % 7
    tm_yday := if 306 ≤ yearday then yearday - 306
               else yearday + 59 + (if isleap (erayear + era * 400) then 1 else 0)
    tm_isdst := 0 }

/-- The seconds `mktime` takes off for `tm_isdst`: a positive value says that the
fields are daylight time, one hour ahead of the zone; zero says that they are not, and
a negative value leaves the matter to the library, which finds no daylight time in the
UTC zone. -/
def isdstShift (isdst : Int) : Int := if isdst > 0 then 3600 else 0

/-- Modelled from the spec: the external calendar construction `mktime`
(`utcSecondsFromCivil`), which normalises a month index outside 0..11 into the
neighbouring years, ignores the incoming `tm_wday` and `tm_yday`, and hands back the
normalised fields of the instant together with the instant. The spec is silent on
`tm_isdst`; the C library function reads it, and takes the fields for daylight time
when it is positive (`isdstShift`). -/
def mktime (tm : Tm) : Int × Tm :=
  let year := tm.tm_year + 1900 + tm.tm_mon / 12
  let mon := tm.tm_mon % 12
  let t := daysFromCivil year mon tm.tm_mday * 86400
            + tm.tm_hour * 3600 + tm.tm_min * 60 + tm.tm_sec - isdstShift tm.tm_isdst
  (t, gmtime t)

/-! ## The collaborators -/

/-- The transport and the tick counter, as seen by the object. -/
structure World where
  /-- Value of the k-th call of `millis()`, before reduction to 32 bits. -/
  clock : Nat → Nat
  /-- Number of calls of `millis()` made so far. -/
  ticks : Nat
  /-- Bytes of the datagram the k-th call of `udp->parsePacket()` finds (none: empty);
  the call reports its length. -/
  datagram : Nat → List Nat
  /-- Number of calls of `udp->parsePacket()` made so far. -/
  polls : Nat
  /-- Payloads handed to `udp->write` and sent, oldest first. -/
  sent : List (List Nat)

/-- The value `millis()` returns next. -/
def millis (w : World) : Nat := w.clock w.ticks % UINT32

/-- The world after one call of `millis()`. -/
def tick (w : World) : World := { w with ticks := w.ticks + 1 }

/-- The size `udp->parsePacket()` reports next, as stored in `uint8_t size`. -/
def parsePacket (w : World) : Nat := (w.datagram w.polls).length % 256

/-- The world after one call of `udp->parsePacket()`. -/
def polled (w : World) : World := { w with polls := w.polls + 1 }

/-- The effect of `udp->read(buf, 48)`: the first 48 bytes of the current datagram
overwrite the buffer; bytes the datagram does not have stay as they were. -/
def udpRead (buf : List Nat) (w : World) : List Nat :=
  (List.range NTP_PACKET_SIZE).map fun i =>
    if i < (w.datagram (w.polls - 1)).length then (w.datagram (w.polls - 1)).getD i 0 % 256
    else buf.getD i 0

/-! ## The object -/

/-- The transition rule `struct ruleDST`. -/
structure RuleDST where
  tzName : List Char
  week : Int
  wday : Int
  month : Int
  hour : Int
  tzOffset : Int
deriving DecidableEq, Repr

/-- The data members of class `NTP` the modelled member functions use. -/
structure NTP where
  ntpRequest : List Nat
  ntpQuery : List Nat
  utcCurrent : Int
  localTime : Int
  current : Option Tm
  interval : Nat
  lastUpdate : Nat
  timezoneOffset : Int
  dstOffset : Int
  dstZone : Bool
  dstRuleConfigured : Bool
  stdRuleConfigured : Bool
  utcTime : Nat
  ntpTime : Nat
  utcSTD : Int
  utcDST : Int
  dstTime : Int
  stdTime : Int
  yearDST : Int
  dstStart : RuleDST
  dstEnd : RuleDST
deriving DecidableEq, Repr

/-- The value `ntpQuery[40] << 24 | ntpQuery[41] << 16 | ntpQuery[42] << 8 |
ntpQuery[43]` as stored in `uint32_t timestamp`: the bit pattern of the 32 bit `int`
the expression is computed in. -/
def timestampOf (q : List Nat) : Nat :=
  ((q.getD 40 0 <<< 24) ||| (q.getD 41 0 <<< 16) ||| (q.getD 42 0 <<< 8) ||| q.getD 43 0)
    % UINT32

/-- The big-endian 32 bit number written in four bytes. -/
def bigEndian32 (b0 b1 b2 b3 : Nat) : Nat :=
  b0 * 16777216 + b1 * 65536 + b2 * 256 + b3

/-- The loop `while (size != 48)` of `ntpUpdate`, one unit of fuel per iteration.
`some false`: the timeout `return false` was taken; `some true`: the loop was left with
`size == 48`; `none`: the fuel ran out. -/
def pollReply : Nat → Nat → World → Option (Bool × World)
  | 0, _, _ => none
  | fuel + 1, startTime, w =>
    if sub32 (millis (polled w)) startTime > 1000 then some (false, tick (polled w))
    else if parsePacket w = 48 then some (true, tick (polled w))
    else pollReply fuel startTime (tick (polled w))

/-- Member `NTP::ntpUpdate()`, the branch compiled when `__AVR__` is not defined. -/
def ntpUpdate (fuel : Nat) (s : NTP) (w : World) : Option (Bool × NTP × World) :=
  let w0 : World := { w with sent := w.sent ++ [s.ntpRequest] }
  match pollReply fuel (millis w0) (tick w0) with
  | none => none
  | some (false, w1) => some (false, s, w1)
  | some (true, w1) =>
    let s1 : NTP := { s with lastUpdate := millis w1, ntpQuery := udpRead s.ntpQuery w1 }
    if timestampOf s1.ntpQuery ≠ 0 then
      some (true, { s1 with ntpTime := timestampOf s1.ntpQuery,
                            utcTime := sub32 (timestampOf s1.ntpQuery) SEVENTYYEARS },
            tick w1)
    else some (false, s1, tick w1)

/-- The size the i-th poll of a call of `ntpUpdate` started in `w` stores in `size`. -/
def sizeAt (w : World) (i : Nat) : Nat := (w.datagram (w.polls + i)).length % 256

/-- The datagram current at the i-th poll of a call of `ntpUpdate` started in `w`. -/
def replyAt (w : World) (i : Nat) : List Nat := w.datagram (w.polls + i)

/-- The value `millis() - startTime` tested at the i-th poll of a call of `ntpUpdate`
started in `w`: `startTime` is the first reading of the call, the test reads again. -/
def elapsedAt (w : World) (i : Nat) : Nat :=
  sub32 (w.clock (w.ticks + 1 + i) % UINT32) (w.clock w.ticks % UINT32)

/-- The tick stored in `lastUpdate` when the loop is left at the i-th poll. -/
def acceptTick (w : World) (i : Nat) : Nat := w.clock (w.ticks + 2 + i) % UINT32

/-- Member `NTP::update()`. -/
def update (fuel : Nat) (s : NTP) (w : World) : Option (Bool × NTP × World) :=
  if sub32 (millis w) s.lastUpdate ≥ s.interval ∨ s.lastUpdate = 0 then
    ntpUpdate fuel s (tick w)
  else some (false, s, tick w)

/-- Member `NTP::updateInterval(uint32_t)`. -/
def updateInterval (s : NTP) (interval : Nat) : NTP :=
  { s with interval := interval % UINT32 }

/-- The value an `int8_t` parameter receives from an integer argument: the argument
itself when it lies in -128..127, else the value in that range congruent to it
modulo 256. -/
def int8 (x : Int) : Int := (x + 128) % 256 - 128

/-- Member `NTP::ruleDST(tzName, week, wday, month, hour, tzOffset)`; `week`, `wday`,
`month` and `hour` are `int8_t` parameters, `tzOffset` is an `int`. -/
def ruleDST (s : NTP) (tzName : List Char) (week wday month hour tzOffset : Int) : NTP :=
  if int8 week < 0 ∨ int8 week > 4 then s
  else if int8 wday < 0 ∨ int8 wday > 6 then s
  else if int8 month < 0 ∨ int8 month > 11 then s
  else if int8 hour < 0 ∨ int8 hour > 23 then s
  else
    { s with
      dstStart := { tzName := tzName.take TZNAME_CHARS, week := int8 week,
                    wday := int8 wday, month := int8 month, hour := int8 hour,
                    tzOffset := tzOffset }
      dstRuleConfigured := true }

/-- Member `NTP::ruleSTD(tzName, week, wday, month, hour, tzOffset)`; `week`, `wday`,
`month` and `hour` are `int8_t` parameters, `tzOffset` is an `int`. -/
def ruleSTD (s : NTP) (tzName : List Char) (week wday month hour tzOffset : Int) : NTP :=
  if int8 week < 0 ∨ int8 week > 4 then s
  else if int8 wday < 0 ∨ int8 wday > 6 then s
  else if int8 month < 0 ∨ int8 month > 11 then s
  else if int8 hour < 0 ∨ int8 hour > 23 then s
  else
    { s with
      dstEnd := { tzName := tzName.take TZNAME_CHARS, week := int8 week,
                  wday := int8 wday, month := int8 month, hour := int8 hour,
                  tzOffset := tzOffset }
      stdRuleConfigured := true }

/-- Member `NTP::timeZone(tzHours, tzMinutes)`; both are `int8_t` parameters. -/
def timeZone (s : NTP) (tzHours tzMinutes : Int) : NTP :=
  if int8 tzHours < 0 then
    { s with timezoneOffset := int8 tzHours * 3600 - int8 tzMinutes * 60 }
  else { s with timezoneOffset := int8 tzHours * 3600 + int8 tzMinutes * 60 }

/-- Member `NTP::isDST(bool)`, the setter. -/
def setDST (s : NTP) (dstZone : Bool) : NTP := { s with dstZone := dstZone }

/-- Member `NTP::summerTime()`. -/
def summerTime (s : NTP) : Bool :=
  if s.utcCurrent > s.utcDST ∧ s.utcCurrent ≤ s.utcSTD then true else false

/-- Member `NTP::isDST()`, the query. -/
def isDST (s : NTP) : Bool := summerTime s

/-- Member `NTP::calcDateDST(rule, year)`. `month` and `week` are the `uint8_t`
locals; `%` of C is the truncating `Int.tmod`. The local `struct tm tm` is declared
without an initialiser and six of its fields are assigned: `isdst` is the value
`tm.tm_isdst` holds when `mktime` reads it (`tm_wday` and `tm_yday`, unassigned as
well, are not read by `mktime`). -/
def calcDateDST (rule : RuleDST) (year : Int) (isdst : Int) : Int :=
  let month0 := rule.month % 256
  let week0 := rule.week % 256
  let month := if week0 = 0 then (if month0 > 11 then 0 else month0 + 1) else month0
  let year1 := if week0 = 0 ∧ month0 > 11 then year + 1 else year
  let week := if week0 = 0 then 1 else week0
  let r := mktime { tm_hour := rule.hour, tm_min := 0, tm_sec := 0, tm_mday := 1,
                    tm_mon := month, tm_year := year1 - 1900, tm_wday := 0, tm_yday := 0,
                    tm_isdst := isdst }
  let t := r.1 + (Int.tmod (rule.wday - r.2.tm_wday + 7) 7 + (week - 1) * 7) * SECS_PER_DAY
  if rule.week = 0 then t - 7 * SECS_PER_DAY else t

/-- What the two calls of `calcDateDST` made by one `beginDST` find in the unassigned
`tm.tm_isdst`: `enter` at the call for the rule `dstStart`, `exit` at the call for the
rule `dstEnd`. Any two integers can occur. -/
structure Unassigned where
  enter : Int
  exit : Int
deriving DecidableEq, Repr

/-- Member `NTP::beginDST()`. -/
def beginDST (s : NTP) (g : Unassigned) : NTP :=
  match s.current with
  | none => s
  | some tm =>
    { s with
      dstTime := calcDateDST s.dstStart (tm.tm_year + 1900) g.enter
      utcDST := calcDateDST s.dstStart (tm.tm_year + 1900) g.enter
                  - s.dstEnd.tzOffset * SECS_PER_MINUTES
      stdTime := calcDateDST s.dstEnd (tm.tm_year + 1900) g.exit
      utcSTD := calcDateDST s.dstEnd (tm.tm_year + 1900) g.exit
                  - s.dstStart.tzOffset * SECS_PER_MINUTES
      yearDST := tm.tm_year + 1900 }

/-- Member `NTP::currentTime()`; `g` is what its call of `beginDST`, if it makes one,
finds unassigned. -/
def currentTime (s : NTP) (w : World) (g : Unassigned) : NTP × World :=
  let s1 : NTP :=
    { s with utcCurrent := add32 s.utcTime (sub32 (millis w) s.lastUpdate / 1000) }
  if s1.dstZone && s1.dstRuleConfigured && s1.stdRuleConfigured then
    let loc : Int :=
      if summerTime s1 then s1.utcCurrent + s1.dstOffset + s1.timezoneOffset
      else s1.utcCurrent + s1.timezoneOffset
    let s2 : NTP := { s1 with localTime := loc, current := some (gmtime loc) }
    if (gmtime loc).tm_year + 1900 > s2.yearDST then (beginDST s2 g, tick w)
    else (s2, tick w)
  else
    ({ s1 with localTime := s1.utcCurrent + s1.timezoneOffset,
               current := some (gmtime (s1.utcCurrent + s1.timezoneOffset)) }, tick w)

/-- Member `NTP::epoch()`. -/
def epoch (s : NTP) (w : World) (g : Unassigned) : Int × NTP × World :=
  ((currentTime s w g).1.utcCurrent, currentTime s w g)

/-- Member `NTP::hours()`. -/
def hours (s : NTP) (w : World) (g : Unassigned) : Int × NTP × World :=
  (match (currentTime s w g).1.current with
   | none => 0
   | some tm => tm.tm_hour,
   currentTime s w g)

/-- Member `NTP::year()`. -/
def year (s : NTP) (w : World) (g : Unassigned) : Int × NTP × World :=
  (match (currentTime s w g).1.current with
   | none => 1970
   | some tm => tm.tm_year + 1900,
   currentTime s w g)

/-- Member `NTP::month()`. -/
def month (s : NTP) (w : World) (g : Unassigned) : Int × NTP × World :=
  (match (currentTime s w g).1.current with
   | none => 1
   | some tm => tm.tm_mon + 1,
   currentTime s w g)

/-- Member `NTP::day()`. -/
def day (s : NTP) (w : World) (g : Unassigned) : Int × NTP × World :=
  (match (currentTime s w g).1.current with
   | none => 1
   | some tm => tm.tm_mday,
   currentTime s w g)

/-- Member `NTP::weekDay()`. -/
def weekDay (s : NTP) (w : World) (g : Unassigned) : Int × NTP × World :=
  (match (currentTime s w g).1.current with
   | none => 0
   | some tm => tm.tm_wday,
   currentTime s w g)

/-- Member `NTP::minutes()`. -/
def minutes (s : NTP) (w : World) (g : Unassigned) : Int × NTP × World :=
  (match (currentTime s w g).1.current with
   | none => 0
   | some tm => tm.tm_min,
   currentTime s w g)

/-- Member `NTP::seconds()`. -/
def seconds (s : NTP) (w : World) (g : Unassigned) : Int × NTP × World :=
  (match (currentTime s w g).1.current with
   | none => 0
   | some tm => tm.tm_sec,
   currentTime s w g)

/-- The request template written by `NTP::init()`. -/
def requestTemplate : List Nat :=
  ((((((((List.replicate NTP_PACKET_SIZE 0).set 0 0b11100011).set 1 0).set 2 6).set 3 0xEC).set
    12 49).set 13 0x4E).set 14 49).set 15 52

/-- Member `NTP::init()`; `g1` is for the call of `currentTime`, `g2` for the call of
`beginDST` that follows it. -/
def init (fuel : Nat) (s : NTP) (w : World) (g1 g2 : Unassigned) : Option (NTP × World) :=
  match ntpUpdate fuel { s with ntpRequest := requestTemplate } w with
  | none => none
  | some (_, s1, w1) =>
    if s1.dstZone && s1.dstRuleConfigured && s1.stdRuleConfigured then
      let s2 : NTP :=
        { s1 with
          timezoneOffset := s1.dstEnd.tzOffset * SECS_PER_MINUTES
          dstOffset := (s1.dstStart.tzOffset - s1.dstEnd.tzOffset) * SECS_PER_MINUTES }
      some (beginDST (currentTime s2 w1 g1).1 g2, (currentTime s2 w1 g1).2)
    else some (s1, w1)

/-- Member `NTP::ntp()`. -/
def ntp (s : NTP) : Nat := s.ntpTime

/-- Member `NTP::utc()`. -/
def utc (s : NTP) : Nat := s.utcTime

/-- The weekday offset `(wday - tm_wday + 7) % 7` of `calcDateDST`, when the day
`mktime` was asked for is `d0` days after 1970-01-01 (a Thursday, weekday 4). -/
def weekdayOffset (wday d0 : Int) : Int := (wday - (d0 + 4) % 7 + 7) % 7

/-- The fields of day 1 of `rule.month` in `year` at `rule.hour`:00:00, the base date of
a rule. -/
def firstOfMonth (rule : RuleDST) (year : Int) : Tm :=
  { tm_sec := 0, tm_min := 0, tm_hour := rule.hour, tm_mday := 1, tm_mon := rule.month,
    tm_year := year - 1900, tm_wday := 0, tm_yday := 0, tm_isdst := 0 }

/-- The rule `last Sunday of March, 02:00, offset +120 minutes`. -/
def lastSundayMarch : RuleDST := ⟨"CEST".toList, 0, 0, 2, 2, 120⟩

/-- The rule `last Sunday of October, 03:00, offset +60 minutes`. -/
def lastSundayOctober : RuleDST := ⟨"CET".toList, 0, 0, 9, 3, 60⟩

/-- The rule `second Sunday of March, 02:00, offset -240 minutes`. -/
def secondSundayMarch : RuleDST := ⟨"EDT".toList, 2, 0, 2, 2, -240⟩

/-! ## Sample inputs -/

/-- An object on which no member function has run: anchor 0, no rule configured. -/
def fresh : NTP :=
  { ntpRequest := List.replicate 48 0, ntpQuery := List.replicate 48 0, utcCurrent := 0,
    localTime := 0, current := none, interval := 60000, lastUpdate := 0,
    timezoneOffset := 0, dstOffset := 0, dstZone := false, dstRuleConfigured := false,
    stdRuleConfigured := false, utcTime := 0, ntpTime := 0, utcSTD := 0, utcDST := 0,
    dstTime := 0, stdTime := 0, yearDST := 0,
    dstStart := ⟨[], 0, 0, 0, 0, 0⟩, dstEnd := ⟨[], 0, 0, 0, 0, 0⟩ }

/-- A world at its start with the given readings of `millis()` and datagrams. -/
def worldOf (clock : Nat → Nat) (datagram : Nat → List Nat) : World :=
  { clock := clock, ticks := 0, datagram := datagram, polls := 0, sent := [] }

/-- A 48 byte reply with the given bytes 40..43 and zeros elsewhere. -/
def replyWith (b0 b1 b2 b3 : Nat) : List Nat :=
  List.replicate 40 0 ++ [b0, b1, b2, b3] ++ List.replicate 4 0

/-- Nothing on the first two polls, then a reply stamped 0xEA1800C0 (NTP seconds of
2024-06-15 12:00:00 UTC); `millis()` reads 100, 101, 102, ... -/
def juneWorld : World :=
  worldOf (fun k => 100 + k) (fun k => if k = 2 then replyWith 0xEA 0x18 0x00 0xC0 else [])

/-- The object of a sketch for central Europe before `begin()`: base zone +1:00, enter
rule last Sunday of March 02:00 (+120 min), exit rule last Sunday of October 03:00
(+60 min), DST observance on. -/
def cetObject : NTP :=
  setDST
    (ruleSTD (ruleDST (timeZone fresh 1 0) "CEST".toList 0 0 2 2 120) "CET".toList 0 0 9 3 60)
    true

/-- No datagram at all; `millis()` reads 0, 400, 800, 1200, ... -/
def silentWorld : World := worldOf (fun k => 400 * k) (fun _ => [])

/-- A reply stamped 0x83AA7E7F, one second before the Unix epoch, on the first poll;
`millis()` reads 100 three times and 1100 from then on. -/
def wrapWorld : World :=
  worldOf (fun k => if k < 3 then 100 else 1100) (fun _ => replyWith 0x83 0xAA 0x7E 0x7F)

/-- No datagram; `millis()` reads 1000. -/
def bootWorld : World := worldOf (fun _ => 1000) (fun _ => [])

/-! ## Notions and sample inputs for the rules, the window and the throttle -/

/-- The ranges `ruleDST` and `ruleSTD` accept: week 0..4, weekday 0..6, month 0..11,
hour 0..23. -/
@[reducible] def validRule (r : RuleDST) : Prop :=
  0 ≤ r.week ∧ r.week ≤ 4 ∧ 0 ≤ r.wday ∧ r.wday ≤ 6 ∧ 0 ≤ r.month ∧ r.month ≤ 11
    ∧ 0 ≤ r.hour ∧ r.hour ≤ 23

/-- The instant `currentTime` stores in `utcCurrent` when `millis()` reads as in `w`. -/
def utcAt (s : NTP) (w : World) : Int :=
  add32 s.utcTime (sub32 (millis w) s.lastUpdate / 1000)

/-- The instant `currentTime` stores in `local`: `summerTime()` is read with the window
the object holds when the query starts. -/
def localAt (s : NTP) (w : World) : Int :=
  if s.dstZone && s.dstRuleConfigured && s.stdRuleConfigured then
    if summerTime { s with utcCurrent := utcAt s w } then
      utcAt s w + s.dstOffset + s.timezoneOffset
    else utcAt s w + s.timezoneOffset
  else utcAt s w + s.timezoneOffset

/-- Calls of `update()` in a row, `n` of them, each with the given fuel. -/
def updates : Nat → Nat → NTP → World → Option (NTP × World)
  | 0, _, s, w => some (s, w)
  | n + 1, fuel, s, w =>
    match update fuel s w with
    | none => none
    | some (_, s1, w1) => updates n fuel s1 w1

/-- An object synchronised at tick 1000 to 2024-06-15 12:00:00 UTC, interval 60000. -/
def syncedObject : NTP := { fresh with utcTime := 1718452800, lastUpdate := 1000 }

/-- The central European object after a query on 2024-06-15 12:00:00 UTC. -/
def juneObject : NTP :=
  { cetObject with utcTime := 1718452800, lastUpdate := 1000, utcCurrent := 1718452800,
                   current := some (gmtime 1718460000) }

/-- An object whose daylight time starts on the first Sunday of January at 00:00
(+120 min) and ends on the last Sunday of October at 03:00 (+60 min), before `begin()`. -/
def januaryObject : NTP :=
  setDST
    (ruleSTD (ruleDST (timeZone fresh 1 0) "CEST".toList 1 0 0 0 120) "CET".toList 0 0 9 3 60)
    true

/-- The object of `januaryObject` synchronised at tick 100 to 2022-12-31 22:00:00 UTC,
as `init` leaves it when the unassigned `tm_isdst` holds 0: offsets of the rules,
window of 2022. -/
def newYearsEve : NTP :=
  { januaryObject with utcTime := 1672524000, lastUpdate := 100, timezoneOffset := 3600,
                       dstOffset := 3600, yearDST := 2022, utcDST := 1641078000,
                       utcSTD := 1667091600 }

/-- A datagram of 304 bytes, stamped 0xEA1800C0 at bytes 40..43, on the first poll;
`millis()` reads 100, 101, 102, ... -/
def oversizeWorld : World :=
  worldOf (fun k => 100 + k)
    (fun _ => replyWith 0xEA 0x18 0x00 0xC0 ++ List.replicate 256 0)

/-- An object with southern rules: daylight time from the first Sunday of October
02:00 (+660 min) to the first Sunday of April 03:00 (+600 min), after a query in 2024. -/
def sydneyObject : NTP :=
  { setDST
      (ruleSTD (ruleDST fresh "AEDT".toList 1 0 9 2 660) "AEST".toList 1 0 3 3 600) true with
    current := some (gmtime 1718452800) }

/-- The rule `first Sunday of January, 00:00, offset +120 minutes`. -/
def firstSundayJanuary : RuleDST := ⟨"CEST".toList, 1, 0, 0, 0, 120⟩

/-- The unassigned values 1 (for `true`) and 0. -/
def ofBits (enter exit : Bool) : Unassigned :=
  ⟨if enter then 1 else 0, if exit then 1 else 0⟩

/-- What `mktime` tells apart in the unassigned values: positive or not. -/
def signs (g : Unassigned) : Unassigned := ofBits (decide (g.enter > 0)) (decide (g.exit > 0))

/-- A datagram of 304 zero bytes on the first poll and a 48 byte reply stamped
0xEA1800C0 on every later one; `millis()` reads 100, 101, 102, ... -/
def hiddenReplyWorld : World :=
  worldOf (fun k => 100 + k)
    (fun k => if k = 0 then List.replicate 304 0 else replyWith 0xEA 0x18 0x00 0xC0)

/-- No 48 byte datagram at all: nothing on the first poll, a datagram of 304 bytes,
stamped 0xEA1800C0 at bytes 40..43, on the second, nothing afterwards; `millis()` reads
0, 400, 800, 1200, ... -/
def lateOversizeWorld : World :=
  worldOf (fun k => 400 * k)
    (fun k => if k = 1 then replyWith 0xEA 0x18 0x00 0xC0 ++ List.replicate 256 0 else [])

/-- A reply stamped 0xE75B2F60 (NTP seconds of 2022-12-31 22:00:00 UTC) on the first
poll; `millis()` reads 100 four times (the calls of `init`) and 88200100, that is 24
hours and 30 minutes later, from then on. -/
def newYearsDayWorld : World :=
  worldOf (fun k => if k < 4 then 100 else 88200100) (fun _ => replyWith 0xE7 0x5B 0x2F 0x60)

/-- An object with daylight time from the first Monday of October 00:00 (+600 min) to
the last Monday of September 23:00 (+600 min), after a query in 2024. -/
def mondayObject : NTP :=
  { setDST
      (ruleSTD (ruleDST fresh "DST".toList 1 1 9 0 600) "STD".toList 0 1 8 23 600) true with
    current := some (gmtime 1718452800) }

/-! ## Machine arithmetic: lemmas -/

theorem sub32_self (a : Nat) : sub32 a a = 0 := by
  unfold sub32 UINT32 at *
  omega

theorem sub32_add (a d : Nat) (hd : d < UINT32) : sub32 ((a + d) % UINT32) a = d := by
  unfold sub32 UINT32 at *
  omega

theorem sub32_lt (a b : Nat) : sub32 a b < UINT32 :=
  Nat.mod_lt _ (by decide)

theorem add32_zero_div (u : Nat) (h : u < UINT32) : add32 u (0 / 1000) = u := by
  unfold add32 UINT32 at *
  omega

theorem millis_lt (w : World) : millis w < UINT32 :=
  Nat.mod_lt _ (by decide)

/-- The shifts and ors of `timestampOf` add up to the big-endian number. -/
theorem shift_or_eq (b0 b1 b2 b3 : Nat) (h0 : b0 < 256) (h1 : b1 < 256) (h2 : b2 < 256)
    (h3 : b3 < 256) :
    ((b0 <<< 24) ||| (b1 <<< 16) ||| (b2 <<< 8) ||| b3) % UINT32 = bigEndian32 b0 b1 b2 b3 := by
  have e1 : (b0 <<< 24) ||| (b1 <<< 16) = 2 ^ 16 * (b0 * 256 + b1) := by
    have h := Nat.mul_add_lt_is_or (show b1 <<< 16 < 2 ^ 24 by
      rw [Nat.shiftLeft_eq]; omega) b0
    rw [Nat.shiftLeft_eq, Nat.shiftLeft_eq] at *
    rw [Nat.mul_comm b0, ← h]
    omega
  have e2 : 2 ^ 16 * (b0 * 256 + b1) ||| (b2 <<< 8) = 2 ^ 8 * (b0 * 65536 + b1 * 256 + b2) := by
    have h := Nat.mul_add_lt_is_or (show b2 <<< 8 < 2 ^ 16 by
      rw [Nat.shiftLeft_eq]; omega) (b0 * 256 + b1)
    rw [Nat.shiftLeft_eq] at *
    rw [← h]
    omega
  have e3 : 2 ^ 8 * (b0 * 65536 + b1 * 256 + b2) ||| b3
      = 2 ^ 8 * (b0 * 65536 + b1 * 256 + b2) + b3 :=
    (Nat.mul_add_lt_is_or (show b3 < 2 ^ 8 by omega) _).symm
  rw [e1, e2, e3]
  unfold bigEndian32 UINT32
  omega

theorem udpRead_getD (buf : List Nat) (w : World) (i : Nat) (hi : i < 48)
    (hlen : (w.datagram (w.polls - 1)).length = 48) :
    (udpRead buf w).getD i 0 = (w.datagram (w.polls - 1)).getD i 0 % 256 := by
  unfold udpRead NTP_PACKET_SIZE
  rw [List.getD_eq_getElem _ _ (by simpa using hi)]
  simp [hlen, hi]

theorem timestampOf_udpRead (buf : List Nat) (w : World)
    (hlen : (w.datagram (w.polls - 1)).length = 48)
    (hbytes : ∀ b ∈ w.datagram (w.polls - 1), b < 256) :
    timestampOf (udpRead buf w)
      = bigEndian32 ((w.datagram (w.polls - 1)).getD 40 0) ((w.datagram (w.polls - 1)).getD 41 0)
          ((w.datagram (w.polls - 1)).getD 42 0) ((w.datagram (w.polls - 1)).getD 43 0) := by
  have hb : ∀ i, i < 48 → (w.datagram (w.polls - 1)).getD i 0 < 256 := by
    intro i hi
    rw [List.getD_eq_getElem _ _ (by omega)]
    exact hbytes _ (List.getElem_mem _)
  unfold timestampOf
  rw [udpRead_getD buf w 40 (by omega) hlen, udpRead_getD buf w 41 (by omega) hlen,
    udpRead_getD buf w 42 (by omega) hlen, udpRead_getD buf w 43 (by omega) hlen,
    Nat.mod_eq_of_lt (hb 40 (by omega)), Nat.mod_eq_of_lt (hb 41 (by omega)),
    Nat.mod_eq_of_lt (hb 42 (by omega)), Nat.mod_eq_of_lt (hb 43 (by omega))]
  exact shift_or_eq _ _ _ _ (hb 40 (by omega)) (hb 41 (by omega)) (hb 42 (by omega))
    (hb 43 (by omega))

/-! ## The calendar: lemmas -/

theorem isleap_iff (y : Int) :
    isleap y = true ↔ y % 4 = 0 ∧ (y % 100 ≠ 0 ∨ y % 400 = 0) := by
  simp [isleap]

theorem erayearOf_spec (yoe doy : Int) (h0 : 0 ≤ yoe) (h1 : yoe < 400) (hd0 : 0 ≤ doy)
    (hd : doy < 365 ∨ (doy = 365 ∧ ((yoe + 1) % 4 = 0 ∧ ((yoe + 1) % 100 ≠ 0 ∨ (yoe + 1) % 400 = 0)))) :
    erayearOf (yoe * 365 + yoe / 4 - yoe / 100 + doy) = yoe := by
  unfold erayearOf
  obtain ⟨c, r, hc, hr0, hr1⟩ : ∃ c r : Int, yoe = 100 * c + r ∧ 0 ≤ r ∧ r < 100 :=
    ⟨yoe / 100, yoe % 100, by omega, by omega, by omega⟩
  obtain ⟨q, p, hq, hp0, hp1⟩ : ∃ q p : Int, r = 4 * q + p ∧ 0 ≤ p ∧ p < 4 :=
    ⟨r / 4, r % 4, by omega, by omega, by omega⟩
  have hc0 : 0 ≤ c := by omega
  have hc3 : c < 4 := by omega
  have hq0 : 0 ≤ q := by omega
  have hq1 : q < 25 := by omega
  have he : yoe * 365 + yoe / 4 - yoe / 100 + doy = 36524 * c + 1461 * q + 365 * p + doy := by
    omega
  have hleap : doy ≤ 365 ∧ (doy = 365 → p = 3 ∧ (q < 24 ∨ c = 3)) := by omega
  clear hd
  rw [he]
  have hA : (36524 * c + 1461 * q + 365 * p + doy) / 1460
      = 25 * c + q + (24 * c + q + 365 * p + doy) / 1460 := by omega
  have hB : (36524 * c + 1461 * q + 365 * p + doy) / 36524
      = c + (1461 * q + 365 * p + doy) / 36524 := by omega
  have hC : (36524 * c + 1461 * q + 365 * p + doy) / 146096
      = (1461 * q + 365 * p + doy) / 36524 := by
    have : 1461 * q + 365 * p + doy ≤ 36524 := by omega
    have : c < 3 → 1461 * q + 365 * p + doy < 36524 := by omega
    omega
  rw [hA, hB, hC]
  omega

theorem mod400_div (n : Int) :
    n % 400 / 4 = n / 4 - 100 * (n / 400) ∧ n % 400 / 100 = n / 100 - 4 * (n / 400) := by
  constructor <;> omega

theorem leap_step (y : Int) :
    y / 4 - y / 100 + y / 400
      = (y - 1) / 4 - (y - 1) / 100 + (y - 1) / 400 + (if isleap y = true then 1 else 0) := by
  have hl := isleap_iff y
  have h4 : (y % 4 = 0 ∧ y / 4 = (y - 1) / 4 + 1) ∨ (y % 4 ≠ 0 ∧ y / 4 = (y - 1) / 4) := by
    omega
  have h100 : (y % 100 = 0 ∧ y / 100 = (y - 1) / 100 + 1)
      ∨ (y % 100 ≠ 0 ∧ y / 100 = (y - 1) / 100) := by
    omega
  have h400 : (y % 400 = 0 ∧ y / 400 = (y - 1) / 400 + 1)
      ∨ (y % 400 ≠ 0 ∧ y / 400 = (y - 1) / 400) := by
    omega
  have hdiv : (y % 400 = 0 ∧ y % 100 = 0 ∧ y % 4 = 0) ∨ (y % 400 ≠ 0 ∧ y % 100 = 0 ∧ y % 4 = 0)
      ∨ (y % 400 ≠ 0 ∧ y % 100 ≠ 0) := by
    omega
  by_cases hleap : isleap y = true
  · rw [if_pos hleap]
    have := hl.mp hleap
    omega
  · rw [if_neg hleap]
    have : ¬ (y % 4 = 0 ∧ (y % 100 ≠ 0 ∨ y % 400 = 0)) := fun h => hleap (hl.mpr h)
    omega

theorem daysBeforeMonth_march (m : Int) (hm0 : 0 ≤ m) (hm1 : m ≤ 11) :
    (153 * (if m ≤ 1 then m + 10 else m - 2) + 2) / 5
      = daysBeforeMonth m + (if m ≤ 1 then 306 else -59) := by
  obtain rfl | rfl | rfl | rfl | rfl | rfl | rfl | rfl | rfl | rfl | rfl | rfl :
      m = 0 ∨ m = 1 ∨ m = 2 ∨ m = 3 ∨ m = 4 ∨ m = 5 ∨ m = 6 ∨ m = 7 ∨ m = 8 ∨ m = 9
        ∨ m = 10 ∨ m = 11 := by omega
  all_goals decide

/-- The day count of a civil date, re-expressed from 0000-03-01 in eras. -/
theorem daysFromCivil_era (y m d : Int) (hm0 : 0 ≤ m) (hm1 : m ≤ 11) :
    daysFromCivil y m d + 719468 =
      ((if m ≤ 1 then y - 1 else y) / 400) * 146097
      + (((if m ≤ 1 then y - 1 else y) % 400) * 365 + ((if m ≤ 1 then y - 1 else y) % 400) / 4
          - ((if m ≤ 1 then y - 1 else y) % 400) / 100
          + ((153 * (if m ≤ 1 then m + 10 else m - 2) + 2) / 5 + d - 1)) := by
  have hs := leap_step y
  have h1 := mod400_div y
  have h2 := mod400_div (y - 1)
  rw [daysBeforeMonth_march m hm0 hm1]
  unfold daysFromCivil daysBeforeYear
  generalize daysBeforeMonth m = b
  by_cases hm : m ≤ 1
  · have hm2 : ¬ (2 ≤ m) := by omega
    simp only [hm, hm2, if_true, and_false, if_false]
    omega
  · have hm2 : 2 ≤ m := by omega
    simp only [hm, hm2, if_false, and_true] at hs ⊢
    by_cases hleap : isleap y = true
    · rw [if_pos hleap] at hs ⊢
      omega
    · rw [if_neg hleap] at hs ⊢
      omega

theorem daysInMonth_bounds (y m : Int) (hm0 : 0 ≤ m) (hm1 : m ≤ 11) :
    28 ≤ daysInMonth y m ∧ daysInMonth y m ≤ 31
      ∧ daysBeforeMonth m + (if isleap y = true ∧ 2 ≤ m then 1 else 0) + daysInMonth y m
          = (if m = 11 then 365 + (if isleap y = true then 1 else 0)
             else daysBeforeMonth (m + 1) + (if isleap y = true ∧ 2 ≤ m + 1 then 1 else 0)) := by
  obtain rfl | rfl | rfl | rfl | rfl | rfl | rfl | rfl | rfl | rfl | rfl | rfl :
      m = 0 ∨ m = 1 ∨ m = 2 ∨ m = 3 ∨ m = 4 ∨ m = 5 ∨ m = 6 ∨ m = 7 ∨ m = 8 ∨ m = 9
        ∨ m = 10 ∨ m = 11 := by omega
  all_goals
    by_cases hleap : isleap y = true
    all_goals simp [daysInMonth, daysBeforeMonth, hleap]

theorem month_of_yearday (y m d : Int) (hm0 : 0 ≤ m) (hm1 : m ≤ 11) (hd1 : 1 ≤ d)
    (hd2 : d ≤ daysInMonth y m) :
    (5 * ((153 * (if m ≤ 1 then m + 10 else m - 2) + 2) / 5 + d - 1) + 2) / 153
        = (if m ≤ 1 then m + 10 else m - 2)
      ∧ ((153 * (if m ≤ 1 then m + 10 else m - 2) + 2) / 5 + d - 1 < 365
          ∨ ((153 * (if m ≤ 1 then m + 10 else m - 2) + 2) / 5 + d - 1 = 365
              ∧ m = 1 ∧ isleap y = true)) := by
  obtain rfl | rfl | rfl | rfl | rfl | rfl | rfl | rfl | rfl | rfl | rfl | rfl :
      m = 0 ∨ m = 1 ∨ m = 2 ∨ m = 3 ∨ m = 4 ∨ m = 5 ∨ m = 6 ∨ m = 7 ∨ m = 8 ∨ m = 9
        ∨ m = 10 ∨ m = 11 := by omega
  all_goals
    by_cases hleap : isleap y = true
    all_goals simp [daysInMonth, hleap] at hd2 ⊢
    all_goals omega

/-- Break-down of an instant inside a civil day returns that day. -/
theorem gmtime_civil (y m d s : Int) (hm0 : 0 ≤ m) (hm1 : m ≤ 11) (hd1 : 1 ≤ d)
    (hd2 : d ≤ daysInMonth y m) (hs0 : 0 ≤ s) (hs1 : s < 86400) :
    (gmtime (daysFromCivil y m d * 86400 + s)).tm_year = y - 1900
      ∧ (gmtime (daysFromCivil y m d * 86400 + s)).tm_mon = m
      ∧ (gmtime (daysFromCivil y m d * 86400 + s)).tm_mday = d
      ∧ (gmtime (daysFromCivil y m d * 86400 + s)).tm_hour = s / 3600
      ∧ (gmtime (daysFromCivil y m d * 86400 + s)).tm_min = s % 3600 / 60
      ∧ (gmtime (daysFromCivil y m d * 86400 + s)).tm_sec = s % 60
      ∧ (gmtime (daysFromCivil y m d * 86400 + s)).tm_wday = (daysFromCivil y m d + 4) % 7 := by
  have hera := daysFromCivil_era y m d hm0 hm1
  obtain ⟨hmp, hdoy⟩ := month_of_yearday y m d hm0 hm1 hd1 hd2
  have hl := isleap_iff y
  generalize daysFromCivil y m d = D at hera ⊢
  generalize hy' : (if m ≤ 1 then y - 1 else y) = y' at hera
  generalize hmp' : (if m ≤ 1 then m + 10 else m - 2) = mp at hera hmp hdoy
  generalize hdoy' : (153 * mp + 2) / 5 + d - 1 = doy at hera hmp hdoy
  have hdoy0 : 0 ≤ doy := by
    have : 0 ≤ mp := by rw [← hmp']; split <;> omega
    omega
  have hq : (D * 86400 + s) / 86400 = D := by omega
  have hr : (D * 86400 + s) % 86400 = s := by omega
  have hyoe0 : 0 ≤ y' % 400 := by omega
  have hyoe1 : y' % 400 < 400 := by omega
  have hy400 : y' = 400 * (y' / 400) + y' % 400 := by omega
  generalize y' % 400 = yoe at hera hyoe0 hyoe1 hy400
  generalize y' / 400 = E at hera hy400
  have hyoe := erayearOf_spec yoe doy hyoe0 hyoe1 hdoy0 (by
    rcases hdoy with h | ⟨h, hm, hleap⟩
    · exact Or.inl h
    · refine Or.inr ⟨h, ?_⟩
      have := hl.mp hleap
      have hy1 : y' = y - 1 := by rw [← hy']; simp [hm]
      omega)
  generalize hdoe : yoe * 365 + yoe / 4 - yoe / 100 + doy = doe at hera hyoe
  have hdoe0 : 0 ≤ doe := by omega
  have hdoe1 : doe < 146097 := by omega
  have hE : (D + 719468) / 146097 = E := by omega
  have heraday : D + 719468 - E * 146097 = doe := by omega
  have hyd : doe - (365 * yoe + yoe / 4 - yoe / 100) = doy := by omega
  have hmon : (if mp < 10 then mp + 2 else mp - 10) = m := by
    rw [← hmp']; split <;> split <;> omega
  have hyear : yoe + E * 400 + (if m ≤ 1 then 1 else 0) = y := by
    rw [← hy'] at hy400; split at hy400 <;> omega
  simp only [gmtime, hq, hr, hE, heraday, hyoe, hyd, hmp, hmon, hyear]
  refine ⟨trivial, trivial, ?_, trivial, trivial, trivial, ?_⟩
  · omega
  · omega

theorem daysFromCivil_mday (y m d : Int) :
    daysFromCivil y m d = daysFromCivil y m 1 + (d - 1) := by
  unfold daysFromCivil
  omega

theorem daysBeforeYear_succ (y : Int) :
    daysBeforeYear (y + 1) = daysBeforeYear y + 365 + (if isleap y = true then 1 else 0) := by
  have hs := leap_step y
  unfold daysBeforeYear
  rw [show y + 1 - 1 = y by omega]
  omega

/-- The first of the following month comes one month length after the first. -/
theorem daysFromCivil_next_month (y m : Int) (hm0 : 0 ≤ m) (hm1 : m ≤ 11) :
    daysFromCivil (y + (m + 1) / 12) ((m + 1) % 12) 1
      = daysFromCivil y m 1 + daysInMonth y m := by
  obtain ⟨_, _, hsum⟩ := daysInMonth_bounds y m hm0 hm1
  by_cases h11 : m = 11
  · subst h11
    have hy := daysBeforeYear_succ y
    rw [if_pos rfl] at hsum
    have e1 : ((11 : Int) + 1) / 12 = 1 := by decide
    have e2 : ((11 : Int) + 1) % 12 = 0 := by decide
    rw [e1, e2]
    unfold daysFromCivil
    have e3 : daysBeforeMonth 0 = 0 := by decide
    have e4 : ¬ (isleap (y + 1) = true ∧ (2 : Int) ≤ 0) := by
      intro h
      exact absurd h.2 (by decide)
    rw [e3, if_neg e4]
    omega
  · have e1 : (m + 1) / 12 = 0 := by omega
    have e2 : (m + 1) % 12 = m + 1 := by omega
    rw [if_neg h11] at hsum
    rw [e1, e2, add_zero]
    unfold daysFromCivil
    omega

/-- The weekday `gmtime` derives: 1970-01-01 was a Thursday. -/
theorem gmtime_wday (t : Int) : (gmtime t).tm_wday = (t / 86400 + 4) % 7 := by
  simp only [gmtime]
  omega

theorem isdstShift_of_nonpos (isdst : Int) (h : isdst ≤ 0) : isdstShift isdst = 0 := by
  unfold isdstShift
  rw [if_neg (by omega)]

theorem isdstShift_of_pos (isdst : Int) (h : 0 < isdst) : isdstShift isdst = 3600 := by
  unfold isdstShift
  rw [if_pos (by omega)]

theorem isdstShift_cases (isdst : Int) : isdstShift isdst = 0 ∨ isdstShift isdst = 3600 := by
  unfold isdstShift
  split_ifs
  · exact Or.inr rfl
  · exact Or.inl rfl

/-- The instant and the weekday `mktime` hands back for day 1 of a month at a full
hour, whatever `tm_isdst` holds; the month index may be 12. -/
theorem mktime_first_any (y m h isdst : Int) :
    (mktime ⟨0, 0, h, 1, m, y - 1900, 0, 0, isdst⟩).1
        = daysFromCivil (y + m / 12) (m % 12) 1 * 86400 + h * 3600 - isdstShift isdst
      ∧ (mktime ⟨0, 0, h, 1, m, y - 1900, 0, 0, isdst⟩).2.tm_wday
        = ((daysFromCivil (y + m / 12) (m % 12) 1 * 86400 + h * 3600 - isdstShift isdst)
            / 86400 + 4) % 7 := by
  have ht : (mktime ⟨0, 0, h, 1, m, y - 1900, 0, 0, isdst⟩).1
      = daysFromCivil (y + m / 12) (m % 12) 1 * 86400 + h * 3600 - isdstShift isdst := by
    simp only [mktime]
    rw [show y - 1900 + 1900 = y by omega]
    omega
  refine ⟨ht, ?_⟩
  have h2 : (mktime ⟨0, 0, h, 1, m, y - 1900, 0, 0, isdst⟩).2
      = gmtime (mktime ⟨0, 0, h, 1, m, y - 1900, 0, 0, isdst⟩).1 := rfl
  rw [h2, ht, gmtime_wday]

/-- The instant and the weekday `mktime` hands back for day 1 of a month at a full
hour when `tm_isdst` is not positive; the month index may be 12. -/
theorem mktime_first (y m h isdst : Int) (hh0 : 0 ≤ h) (hh1 : h ≤ 23) (hg : isdst ≤ 0) :
    (mktime ⟨0, 0, h, 1, m, y - 1900, 0, 0, isdst⟩).1
        = daysFromCivil (y + m / 12) (m % 12) 1 * 86400 + h * 3600
      ∧ (mktime ⟨0, 0, h, 1, m, y - 1900, 0, 0, isdst⟩).2.tm_wday
        = (daysFromCivil (y + m / 12) (m % 12) 1 + 4) % 7 := by
  obtain ⟨ht, hwd⟩ := mktime_first_any y m h isdst
  rw [isdstShift_of_nonpos isdst hg, sub_zero] at ht hwd
  refine ⟨ht, ?_⟩
  rw [hwd]
  omega

theorem weekdayOffset_spec (wday d0 : Int) (hw0 : 0 ≤ wday) (hw1 : wday ≤ 6) :
    0 ≤ weekdayOffset wday d0 ∧ weekdayOffset wday d0 ≤ 6
      ∧ (d0 + weekdayOffset wday d0 + 4) % 7 = wday := by
  unfold weekdayOffset
  omega

/-- The value of `calcDateDST` for a rule with week 0, whatever `tm_isdst` holds: the
base is the first of the following month at the hour, less the hour `mktime` takes off
for a positive `tm_isdst`. -/
theorem calcDateDST_last_any (rule : RuleDST) (year isdst : Int) (hweek : rule.week = 0)
    (hw0 : 0 ≤ rule.wday) (hw1 : rule.wday ≤ 6) (hm0 : 0 ≤ rule.month)
    (hm1 : rule.month ≤ 11) :
    calcDateDST rule year isdst
      = ((daysFromCivil year rule.month 1 + daysInMonth year rule.month) * 86400
            + rule.hour * 3600 - isdstShift isdst)
        + (weekdayOffset rule.wday
              (((daysFromCivil year rule.month 1 + daysInMonth year rule.month) * 86400
                  + rule.hour * 3600 - isdstShift isdst) / 86400) - 7) * 86400 := by
  obtain ⟨ht, hwd⟩ := mktime_first_any year (rule.month + 1) rule.hour isdst
  rw [daysFromCivil_next_month year rule.month hm0 hm1] at ht hwd
  have e1 : rule.month % 256 = rule.month := by omega
  have e2 : ¬ rule.month > 11 := by omega
  simp only [calcDateDST, hweek, e1, e2, if_true, if_false, false_and, and_false,
    Int.zero_emod, SECS_PER_DAY]
  rw [ht, hwd, Int.tmod_eq_emod (by omega) (by decide)]
  unfold weekdayOffset
  omega

/-- The value of `calcDateDST` for a rule with week 1..4, whatever `tm_isdst` holds. -/
theorem calcDateDST_nth_any (rule : RuleDST) (year isdst : Int) (hk1 : 1 ≤ rule.week)
    (hk4 : rule.week ≤ 4) (hw0 : 0 ≤ rule.wday) (hw1 : rule.wday ≤ 6) (hm0 : 0 ≤ rule.month)
    (hm1 : rule.month ≤ 11) :
    calcDateDST rule year isdst
      = (daysFromCivil year rule.month 1 * 86400 + rule.hour * 3600 - isdstShift isdst)
        + (weekdayOffset rule.wday
              ((daysFromCivil year rule.month 1 * 86400 + rule.hour * 3600
                  - isdstShift isdst) / 86400)
            + 7 * (rule.week - 1)) * 86400 := by
  obtain ⟨ht, hwd⟩ := mktime_first_any year rule.month rule.hour isdst
  have d1 : rule.month / 12 = 0 := by omega
  have d2 : rule.month % 12 = rule.month := by omega
  rw [d1, d2, add_zero] at ht hwd
  have e1 : rule.month % 256 = rule.month := by omega
  have e3 : rule.week % 256 = rule.week := by omega
  have e4 : ¬ rule.week = 0 := by omega
  simp only [calcDateDST, e1, e3, e4, if_false, false_and, SECS_PER_DAY]
  rw [ht, hwd, Int.tmod_eq_emod (by omega) (by decide)]
  unfold weekdayOffset
  omega

/-- The value of `calcDateDST` for a rule with week 0 when `tm_isdst` is not positive. -/
theorem calcDateDST_last_eq (rule : RuleDST) (year isdst : Int) (hg : isdst ≤ 0)
    (hweek : rule.week = 0)
    (hw0 : 0 ≤ rule.wday) (hw1 : rule.wday ≤ 6) (hm0 : 0 ≤ rule.month)
    (hm1 : rule.month ≤ 11) (hh0 : 0 ≤ rule.hour) (hh1 : rule.hour ≤ 23) :
    calcDateDST rule year isdst
      = (daysFromCivil year rule.month 1 + daysInMonth year rule.month
          + weekdayOffset rule.wday (daysFromCivil year rule.month 1 + daysInMonth year rule.month)
          - 7) * 86400 + rule.hour * 3600 := by
  obtain ⟨ht, hwd⟩ := mktime_first year (rule.month + 1) rule.hour isdst hh0 hh1 hg
  rw [daysFromCivil_next_month year rule.month hm0 hm1] at ht hwd
  have e1 : rule.month % 256 = rule.month := by omega
  have e2 : ¬ rule.month > 11 := by omega
  simp only [calcDateDST, hweek, e1, e2, if_true, if_false, false_and, and_false,
    Int.zero_emod, SECS_PER_DAY]
  rw [ht, hwd, Int.tmod_eq_emod (by omega) (by decide)]
  unfold weekdayOffset
  omega

/-- The value of `calcDateDST` for a rule with week 1..4 when `tm_isdst` is not
positive. -/
theorem calcDateDST_nth_eq (rule : RuleDST) (year isdst : Int) (hg : isdst ≤ 0)
    (hk1 : 1 ≤ rule.week)
    (hk4 : rule.week ≤ 4) (hw0 : 0 ≤ rule.wday) (hw1 : rule.wday ≤ 6) (hm0 : 0 ≤ rule.month)
    (hm1 : rule.month ≤ 11) (hh0 : 0 ≤ rule.hour) (hh1 : rule.hour ≤ 23) :
    calcDateDST rule year isdst
      = (daysFromCivil year rule.month 1
          + weekdayOffset rule.wday (daysFromCivil year rule.month 1)
          + 7 * (rule.week - 1)) * 86400 + rule.hour * 3600 := by
  obtain ⟨ht, hwd⟩ := mktime_first year rule.month rule.hour isdst hh0 hh1 hg
  have d1 : rule.month / 12 = 0 := by omega
  have d2 : rule.month % 12 = rule.month := by omega
  rw [d1, d2, add_zero] at ht hwd
  have e1 : rule.month % 256 = rule.month := by omega
  have e3 : rule.week % 256 = rule.week := by omega
  have e4 : ¬ rule.week = 0 := by omega
  simp only [calcDateDST, e1, e3, e4, if_false, false_and, SECS_PER_DAY]
  rw [ht, hwd, Int.tmod_eq_emod (by omega) (by decide)]
  unfold weekdayOffset
  omega

/-- Break-down of the instant `k` days after day 1 of a month, at a full hour, while
`k` stays inside the month. -/
theorem gmtime_day_of_month (y m k h : Int) (hm0 : 0 ≤ m) (hm1 : m ≤ 11) (hk0 : 0 ≤ k)
    (hk1 : k < daysInMonth y m) (hh0 : 0 ≤ h) (hh1 : h ≤ 23) :
    (gmtime ((daysFromCivil y m 1 + k) * 86400 + h * 3600)).tm_year + 1900 = y
      ∧ (gmtime ((daysFromCivil y m 1 + k) * 86400 + h * 3600)).tm_mon = m
      ∧ (gmtime ((daysFromCivil y m 1 + k) * 86400 + h * 3600)).tm_mday = k + 1
      ∧ (gmtime ((daysFromCivil y m 1 + k) * 86400 + h * 3600)).tm_hour = h
      ∧ (gmtime ((daysFromCivil y m 1 + k) * 86400 + h * 3600)).tm_min = 0
      ∧ (gmtime ((daysFromCivil y m 1 + k) * 86400 + h * 3600)).tm_sec = 0
      ∧ (gmtime ((daysFromCivil y m 1 + k) * 86400 + h * 3600)).tm_wday
          = (daysFromCivil y m 1 + k + 4) % 7 := by
  have hg := gmtime_civil y m (k + 1) (h * 3600) hm0 hm1 (by omega) (by omega) (by omega)
    (by omega)
  have hd : daysFromCivil y m (k + 1) = daysFromCivil y m 1 + k := by
    rw [daysFromCivil_mday y m (k + 1)]
    omega
  rw [hd] at hg
  obtain ⟨a1, a2, a3, a4, a5, a6, a7⟩ := hg
  refine ⟨by omega, a2, a3, by omega, by omega, by omega, a7⟩

/-- The last occurrence when the unassigned `tm_isdst` is not positive: for a rule with
week 0, weekday 0..6, month 0..11 (December included) and hour 0..23, and for any year,
the instant `calcDateDST` then returns lies in that month of that year at
`rule.hour`:00:00, its weekday is `rule.wday`, and the same weekday seven days later
lies in the following month (January of the next year after December). -/
theorem last_occurrence_of_isdst_not_positive (rule : RuleDST) (year isdst : Int)
    (hg : isdst ≤ 0) (hweek : rule.week = 0)
    (hw0 : 0 ≤ rule.wday) (hw1 : rule.wday ≤ 6) (hm0 : 0 ≤ rule.month)
    (hm1 : rule.month ≤ 11) (hh0 : 0 ≤ rule.hour) (hh1 : rule.hour ≤ 23) :
    (gmtime (calcDateDST rule year isdst)).tm_year + 1900 = year
      ∧ (gmtime (calcDateDST rule year isdst)).tm_mon = rule.month
      ∧ (gmtime (calcDateDST rule year isdst)).tm_hour = rule.hour
      ∧ (gmtime (calcDateDST rule year isdst)).tm_min = 0
      ∧ (gmtime (calcDateDST rule year isdst)).tm_sec = 0
      ∧ (gmtime (calcDateDST rule year isdst)).tm_wday = rule.wday
      ∧ (gmtime (calcDateDST rule year isdst + 7 * SECS_PER_DAY)).tm_wday = rule.wday
      ∧ (gmtime (calcDateDST rule year isdst + 7 * SECS_PER_DAY)).tm_mon = (rule.month + 1) % 12
      ∧ (gmtime (calcDateDST rule year isdst + 7 * SECS_PER_DAY)).tm_year + 1900
          = year + (rule.month + 1) / 12 := by
  have heq := calcDateDST_last_eq rule year isdst hg hweek hw0 hw1 hm0 hm1 hh0 hh1
  obtain ⟨ho0, ho6, hwd⟩ := weekdayOffset_spec rule.wday
    (daysFromCivil year rule.month 1 + daysInMonth year rule.month) hw0 hw1
  obtain ⟨hd28, hd31, _⟩ := daysInMonth_bounds year rule.month hm0 hm1
  have hnext := daysFromCivil_next_month year rule.month hm0 hm1
  obtain ⟨hn28, _, _⟩ := daysInMonth_bounds (year + (rule.month + 1) / 12)
    ((rule.month + 1) % 12) (by omega) (by omega)
  generalize weekdayOffset rule.wday
    (daysFromCivil year rule.month 1 + daysInMonth year rule.month) = off at heq ho0 ho6 hwd
  -- the instant itself: `dim + off - 7` days after the first of the month
  have h1 := gmtime_day_of_month year rule.month (daysInMonth year rule.month + off - 7)
    rule.hour hm0 hm1 (by omega) (by omega) hh0 hh1
  have e1 : calcDateDST rule year isdst
      = (daysFromCivil year rule.month 1 + (daysInMonth year rule.month + off - 7)) * 86400
        + rule.hour * 3600 := by
    rw [heq]
    omega
  -- seven days later: `off` days after the first of the following month
  have h2 := gmtime_day_of_month (year + (rule.month + 1) / 12) ((rule.month + 1) % 12) off
    rule.hour (by omega) (by omega) ho0 (by omega) hh0 hh1
  have e2 : calcDateDST rule year isdst + 7 * SECS_PER_DAY
      = (daysFromCivil (year + (rule.month + 1) / 12) ((rule.month + 1) % 12) 1 + off) * 86400
        + rule.hour * 3600 := by
    rw [heq, hnext]
    unfold SECS_PER_DAY
    omega
  rw [e2, e1]
  obtain ⟨a1, a2, _, a4, a5, a6, a7⟩ := h1
  obtain ⟨b1, b2, _, _, _, _, b7⟩ := h2
  refine ⟨a1, a2, a4, a5, a6, ?_, ?_, b2, b1⟩
  · rw [a7]
    omega
  · rw [b7, hnext]
    omega

/-- The last Sunday of October 2024, 03:00, when `tm_isdst` holds zero: October 27
(instant 1729998000); seven days later is November 3. -/
theorem last_occurrence_of_isdst_not_positive_witness :
    calcDateDST lastSundayOctober 2024 0 = 1729998000
      ∧ (gmtime (calcDateDST lastSundayOctober 2024 0)).tm_mday = 27
      ∧ (gmtime (calcDateDST lastSundayOctober 2024 0)).tm_hour = lastSundayOctober.hour
      ∧ (gmtime (calcDateDST lastSundayOctober 2024 0)).tm_wday = lastSundayOctober.wday
      ∧ (gmtime (calcDateDST lastSundayOctober 2024 0 + 7 * SECS_PER_DAY)).tm_mon
          = (lastSundayOctober.month + 1) % 12 :=
  have h := last_occurrence_of_isdst_not_positive lastSundayOctober 2024 0 (by decide)
    (by decide) (by decide) (by decide) (by decide) (by decide) (by decide) (by decide)
  ⟨by decide, by decide, h.2.2.1, h.2.2.2.2.2.1, h.2.2.2.2.2.2.2.1⟩

/-- C6, the code at a failing input: the rule is the last Sunday of October at 03:00,
the year 2024, and the unassigned `tm.tm_isdst` holds 1 when `mktime` reads it.
`calcDateDST` returns 1729994400, which is October 27 at 02:00:00 and not at
`rule.hour` = 3; with the field at 0 it returns 1729998000, 03:00:00. For the last
Sunday of March 2024 at 00:00 and the field at 1 it returns March 24 at 23:00:00: the
Sunday seven days later, March 31, is still in March. -/
theorem calcDateDST_last_reads_unassigned_isdst :
    calcDateDST lastSundayOctober 2024 1 = 1729994400
      ∧ ((gmtime (calcDateDST lastSundayOctober 2024 1)).tm_mon,
          (gmtime (calcDateDST lastSundayOctober 2024 1)).tm_mday,
          (gmtime (calcDateDST lastSundayOctober 2024 1)).tm_hour,
          lastSundayOctober.hour) = (9, 27, 2, 3)
      ∧ calcDateDST lastSundayOctober 2024 0 = 1729998000
      ∧ (gmtime (calcDateDST lastSundayOctober 2024 0)).tm_hour = 3
      ∧ ((gmtime (calcDateDST ⟨[], 0, 0, 2, 0, 120⟩ 2024 1)).tm_mon,
          (gmtime (calcDateDST ⟨[], 0, 0, 2, 0, 120⟩ 2024 1)).tm_mday,
          (gmtime (calcDateDST ⟨[], 0, 0, 2, 0, 120⟩ 2024 1)).tm_hour,
          (gmtime (calcDateDST ⟨[], 0, 0, 2, 0, 120⟩ 2024 1)).tm_wday) = (2, 24, 23, 0)
      ∧ ((gmtime (calcDateDST ⟨[], 0, 0, 2, 0, 120⟩ 2024 1 + 7 * SECS_PER_DAY)).tm_mon,
          (gmtime (calcDateDST ⟨[], 0, 0, 2, 0, 120⟩ 2024 1 + 7 * SECS_PER_DAY)).tm_mday,
          (gmtime (calcDateDST ⟨[], 0, 0, 2, 0, 120⟩ 2024 1 + 7 * SECS_PER_DAY)).tm_wday)
          = (2, 31, 0) := by
  refine ⟨?_, ?_, ?_, ?_, ?_, ?_⟩ <;> decide

/-- The days up to day `off + 7 * (week - 1) + 1` of a month whose weekday is that of
day `off + 1` are that day and the ones whole weeks before it. -/
theorem nth_occurrence_arith (d0 wday off week k : Int) (ho0 : 0 ≤ off) (ho6 : off ≤ 6)
    (hoff : (d0 + off + 4) % 7 = wday) (hk1 : 1 ≤ week) (hk4 : week ≤ 4) :
    (1 ≤ k ∧ k ≤ off + 7 * (week - 1) + 1 ∧ (d0 + (k - 1) + 4) % 7 = wday)
      ↔ ∃ i : Int, 0 ≤ i ∧ i < week ∧ k = off + 7 * (week - 1) + 1 - 7 * i := by
  constructor
  · rintro ⟨h1, h2, h3⟩
    exact ⟨(off + 7 * (week - 1) + 1 - k) / 7, by omega, by omega, by omega⟩
  · rintro ⟨i, hi0, hi1, hk⟩
    refine ⟨by omega, by omega, ?_⟩
    subst hk
    omega

/-- What `mktime` makes of the base date of a rule: day 1 of the month at the hour, and
the weekday of each of the first 28 days of that month. -/
theorem mktime_firstOfMonth (rule : RuleDST) (year : Int) (hm0 : 0 ≤ rule.month)
    (hm1 : rule.month ≤ 11) (hh0 : 0 ≤ rule.hour) (hh1 : rule.hour ≤ 23) :
    ((mktime (firstOfMonth rule year)).2.tm_year + 1900 = year
        ∧ (mktime (firstOfMonth rule year)).2.tm_mon = rule.month
        ∧ (mktime (firstOfMonth rule year)).2.tm_mday = 1
        ∧ (mktime (firstOfMonth rule year)).2.tm_hour = rule.hour
        ∧ (mktime (firstOfMonth rule year)).2.tm_min = 0
        ∧ (mktime (firstOfMonth rule year)).2.tm_sec = 0)
      ∧ (mktime (firstOfMonth rule year)).1
          = daysFromCivil year rule.month 1 * 86400 + rule.hour * 3600
      ∧ (mktime (firstOfMonth rule year)).2.tm_wday = (daysFromCivil year rule.month 1 + 4) % 7
      ∧ ∀ k : Int, 1 ≤ k → k ≤ 28 →
          (gmtime ((mktime (firstOfMonth rule year)).1 + (k - 1) * SECS_PER_DAY)).tm_wday
            = (daysFromCivil year rule.month 1 + (k - 1) + 4) % 7 := by
  obtain ⟨ht, hwd⟩ := mktime_first year rule.month rule.hour 0 hh0 hh1 (le_refl _)
  have d1 : rule.month / 12 = 0 := by omega
  have d2 : rule.month % 12 = rule.month := by omega
  rw [d1, d2, add_zero] at ht hwd
  have ht1 : (mktime (firstOfMonth rule year)).1
      = daysFromCivil year rule.month 1 * 86400 + rule.hour * 3600 := ht
  have hbase : (mktime (firstOfMonth rule year)).2
      = gmtime ((daysFromCivil year rule.month 1 + 0) * 86400 + rule.hour * 3600) := by
    have h2 : (mktime (firstOfMonth rule year)).2 = gmtime (mktime (firstOfMonth rule year)).1 :=
      rfl
    rw [h2, ht1, add_zero]
  obtain ⟨hd28, _, _⟩ := daysInMonth_bounds year rule.month hm0 hm1
  obtain ⟨b1, b2, b3, b4, b5, b6, _⟩ := gmtime_day_of_month year rule.month 0 rule.hour hm0
    hm1 (le_refl _) (by omega) hh0 hh1
  refine ⟨?_, ht1, hwd, ?_⟩
  · rw [hbase]
    exact ⟨b1, b2, by omega, b4, b5, b6⟩
  · intro k hk1 hk28
    have hk := gmtime_day_of_month year rule.month (k - 1) rule.hour hm0 hm1 (by omega)
      (by omega) hh0 hh1
    have e : (mktime (firstOfMonth rule year)).1 + (k - 1) * SECS_PER_DAY
        = (daysFromCivil year rule.month 1 + (k - 1)) * 86400 + rule.hour * 3600 := by
      rw [ht1]
      unfold SECS_PER_DAY
      omega
    rw [e]
    exact hk.2.2.2.2.2.2

/-- The week-th occurrence when the unassigned `tm_isdst` is not positive: for a rule
with week 1..4 (weekday 0..6, month 0..11, hour 0..23) the base date is day 1 of
`rule.month` of the year at `rule.hour`:00:00, and `calcDateDST` then returns
base + ((rule.wday - baseWeekday + 7) mod 7 + (week - 1) * 7) days. The result lies in
that month of that year at `rule.hour`:00:00, has weekday `rule.wday` and a day of
month in 7*(week-1)+1 .. 7*week, and the days of the month up to it that fall on
`rule.wday` are exactly the `week` days result, result - 7, ...: it is the week-th
occurrence. -/
theorem nth_occurrence_of_isdst_not_positive (rule : RuleDST) (year isdst : Int)
    (hg : isdst ≤ 0) (hk1 : 1 ≤ rule.week)
    (hk4 : rule.week ≤ 4) (hw0 : 0 ≤ rule.wday) (hw1 : rule.wday ≤ 6) (hm0 : 0 ≤ rule.month)
    (hm1 : rule.month ≤ 11) (hh0 : 0 ≤ rule.hour) (hh1 : rule.hour ≤ 23) :
    ((mktime (firstOfMonth rule year)).2.tm_year + 1900 = year
        ∧ (mktime (firstOfMonth rule year)).2.tm_mon = rule.month
        ∧ (mktime (firstOfMonth rule year)).2.tm_mday = 1
        ∧ (mktime (firstOfMonth rule year)).2.tm_hour = rule.hour
        ∧ (mktime (firstOfMonth rule year)).2.tm_min = 0
        ∧ (mktime (firstOfMonth rule year)).2.tm_sec = 0)
      ∧ calcDateDST rule year isdst
          = (mktime (firstOfMonth rule year)).1
            + ((rule.wday - (mktime (firstOfMonth rule year)).2.tm_wday + 7) % 7
                + (rule.week - 1) * 7) * SECS_PER_DAY
      ∧ ((gmtime (calcDateDST rule year isdst)).tm_year + 1900 = year
        ∧ (gmtime (calcDateDST rule year isdst)).tm_mon = rule.month
        ∧ (gmtime (calcDateDST rule year isdst)).tm_hour = rule.hour
        ∧ (gmtime (calcDateDST rule year isdst)).tm_min = 0
        ∧ (gmtime (calcDateDST rule year isdst)).tm_sec = 0
        ∧ (gmtime (calcDateDST rule year isdst)).tm_wday = rule.wday)
      ∧ 7 * (rule.week - 1) + 1 ≤ (gmtime (calcDateDST rule year isdst)).tm_mday
      ∧ (gmtime (calcDateDST rule year isdst)).tm_mday ≤ 7 * rule.week
      ∧ ∀ k : Int,
          (1 ≤ k ∧ k ≤ (gmtime (calcDateDST rule year isdst)).tm_mday
              ∧ (gmtime ((mktime (firstOfMonth rule year)).1 + (k - 1) * SECS_PER_DAY)).tm_wday
                  = rule.wday)
            ↔ ∃ i : Int, 0 ≤ i ∧ i < rule.week
                ∧ k = (gmtime (calcDateDST rule year isdst)).tm_mday - 7 * i := by
  obtain ⟨hb, ht1, hwd1, hday⟩ := mktime_firstOfMonth rule year hm0 hm1 hh0 hh1
  have heq := calcDateDST_nth_eq rule year isdst hg hk1 hk4 hw0 hw1 hm0 hm1 hh0 hh1
  obtain ⟨ho0, ho6, hoff⟩ := weekdayOffset_spec rule.wday (daysFromCivil year rule.month 1)
    hw0 hw1
  have hoffdef : weekdayOffset rule.wday (daysFromCivil year rule.month 1)
      = (rule.wday - (daysFromCivil year rule.month 1 + 4) % 7 + 7) % 7 := rfl
  obtain ⟨hd28, _, _⟩ := daysInMonth_bounds year rule.month hm0 hm1
  generalize weekdayOffset rule.wday (daysFromCivil year rule.month 1) = off
    at heq ho0 ho6 hoff hoffdef
  obtain ⟨a1, a2, a3, a4, a5, a6, a7⟩ := gmtime_day_of_month year rule.month
    (off + 7 * (rule.week - 1)) rule.hour hm0 hm1 (by omega) (by omega) hh0 hh1
  have e1 : calcDateDST rule year isdst
      = (daysFromCivil year rule.month 1 + (off + 7 * (rule.week - 1))) * 86400
        + rule.hour * 3600 := by
    rw [heq]
    omega
  have e2 : calcDateDST rule year isdst
      = (mktime (firstOfMonth rule year)).1
        + ((rule.wday - (mktime (firstOfMonth rule year)).2.tm_wday + 7) % 7
            + (rule.week - 1) * 7) * SECS_PER_DAY := by
    rw [heq, ht1, hwd1, ← hoffdef]
    unfold SECS_PER_DAY
    omega
  have a7w : (gmtime ((daysFromCivil year rule.month 1 + (off + 7 * (rule.week - 1))) * 86400
      + rule.hour * 3600)).tm_wday = rule.wday := by
    rw [a7]
    omega
  refine ⟨hb, e2, ?_⟩
  rw [e1, a3]
  refine ⟨⟨a1, a2, a4, a5, a6, a7w⟩, by omega, by omega, fun k => ?_⟩
  have harith := nth_occurrence_arith (daysFromCivil year rule.month 1) rule.wday off
    rule.week k ho0 ho6 hoff hk1 hk4
  constructor
  · rintro ⟨hk1, hk2, hk3⟩
    rw [hday k hk1 (by omega)] at hk3
    exact harith.mp ⟨hk1, hk2, hk3⟩
  · intro h
    obtain ⟨hk1, hk2, hk3⟩ := harith.mpr h
    refine ⟨hk1, hk2, ?_⟩
    rw [hday k hk1 (by omega)]
    exact hk3

/-- The second Sunday of March 2024, 02:00, when `tm_isdst` holds zero: March 10
(instant 1710036000). -/
theorem nth_occurrence_of_isdst_not_positive_witness :
    (gmtime (calcDateDST secondSundayMarch 2024 0)).tm_mday = 10
      ∧ calcDateDST secondSundayMarch 2024 0 = 1710036000
      ∧ ∀ k : Int,
          (1 ≤ k ∧ k ≤ (gmtime (calcDateDST secondSundayMarch 2024 0)).tm_mday
              ∧ (gmtime ((mktime (firstOfMonth secondSundayMarch 2024)).1
                    + (k - 1) * SECS_PER_DAY)).tm_wday = secondSundayMarch.wday)
            ↔ ∃ i : Int, 0 ≤ i ∧ i < secondSundayMarch.week
                ∧ k = (gmtime (calcDateDST secondSundayMarch 2024 0)).tm_mday - 7 * i :=
  ⟨by decide, by decide,
    (nth_occurrence_of_isdst_not_positive secondSundayMarch 2024 0 (by decide) (by decide)
      (by decide) (by decide) (by decide) (by decide) (by decide) (by decide)
      (by decide)).2.2.2.2.2⟩

/-- C7, the code at a failing input: the rule is the first Sunday of January at 00:00,
the year 2023, and the unassigned `tm.tm_isdst` holds 1 when `mktime` reads it. Day 1
of January 2023 at 00:00:00 is the instant 1672531200, a Sunday, so base + ((0 - 0 + 7)
mod 7 + 0 * 7) days is 1672531200; `calcDateDST` returns 1672614000, which is January
1 at 23:00:00. With the field at 0 it returns 1672531200. -/
theorem calcDateDST_nth_reads_unassigned_isdst :
    calcDateDST firstSundayJanuary 2023 1 = 1672614000
      ∧ ((mktime (firstOfMonth firstSundayJanuary 2023)).1,
          (mktime (firstOfMonth firstSundayJanuary 2023)).2.tm_wday) = (1672531200, 0)
      ∧ (mktime (firstOfMonth firstSundayJanuary 2023)).1
          + ((firstSundayJanuary.wday - (mktime (firstOfMonth firstSundayJanuary 2023)).2.tm_wday
                + 7) % 7 + (firstSundayJanuary.week - 1) * 7) * SECS_PER_DAY = 1672531200
      ∧ ((gmtime (calcDateDST firstSundayJanuary 2023 1)).tm_mday,
          (gmtime (calcDateDST firstSundayJanuary 2023 1)).tm_hour,
          firstSundayJanuary.hour) = (1, 23, 0)
      ∧ calcDateDST firstSundayJanuary 2023 0 = 1672531200 := by
  refine ⟨?_, ?_, ?_, ?_, ?_⟩ <;> decide

/-! ## The polling loop -/

/-- The loop is left with `size == 48` at the first poll that sees 48, when every poll
up to it is within the timeout. -/
theorem pollReply_accept (j : Nat) :
    ∀ (fuel start : Nat) (w : World), j < fuel →
      (∀ i, i < j → (w.datagram (w.polls + i)).length % 256 ≠ 48
        ∧ sub32 (w.clock (w.ticks + i) % UINT32) start ≤ 1000) →
      (w.datagram (w.polls + j)).length % 256 = 48 →
      sub32 (w.clock (w.ticks + j) % UINT32) start ≤ 1000 →
      pollReply fuel start w
        = some (true, { w with ticks := w.ticks + j + 1, polls := w.polls + j + 1 }) := by
  induction j with
  | zero =>
    intro fuel start w hfuel _ hsize htime
    obtain ⟨f, rfl⟩ : ∃ f, fuel = f + 1 := ⟨fuel - 1, by omega⟩
    have ht : ¬ sub32 (millis (polled w)) start > 1000 := by
      simpa [millis, polled] using htime
    have hs : parsePacket w = 48 := by simpa [parsePacket] using hsize
    simp only [pollReply, if_neg ht, if_pos hs]
    rfl
  | succ j ih =>
    intro fuel start w hfuel hearly hsize htime
    obtain ⟨f, rfl⟩ : ∃ f, fuel = f + 1 := ⟨fuel - 1, by omega⟩
    have h0 := hearly 0 (by omega)
    have ht : ¬ sub32 (millis (polled w)) start > 1000 := by
      simpa [millis, polled] using h0.2
    have hs : ¬ parsePacket w = 48 := by simpa [parsePacket] using h0.1
    have hrec := ih f start (tick (polled w)) (by omega)
      (by
        intro i hi
        have := hearly (i + 1) (by omega)
        simpa [tick, polled, Nat.add_assoc, Nat.add_comm 1 i] using this)
      (by simpa [tick, polled, Nat.add_assoc, Nat.add_comm 1 j] using hsize)
      (by simpa [tick, polled, Nat.add_assoc, Nat.add_comm 1 j] using htime)
    simp only [pollReply, if_neg ht, if_neg hs]
    rw [hrec]
    simp [tick, polled, Nat.add_assoc, Nat.add_comm 1 j]

/-- The loop takes the timeout `return false` when no poll has seen 48 by the time a
poll measures more than 1000 ms. -/
theorem pollReply_timeout (j : Nat) :
    ∀ (fuel start : Nat) (w : World), j < fuel →
      (∀ i, i < j → (w.datagram (w.polls + i)).length % 256 ≠ 48) →
      sub32 (w.clock (w.ticks + j) % UINT32) start > 1000 →
      ∃ w1 : World, pollReply fuel start w = some (false, w1) ∧ w1.sent = w.sent := by
  induction j with
  | zero =>
    intro fuel start w hfuel _ hlate
    obtain ⟨f, rfl⟩ : ∃ f, fuel = f + 1 := ⟨fuel - 1, by omega⟩
    have ht : sub32 (millis (polled w)) start > 1000 := by
      simpa [millis, polled] using hlate
    exact ⟨tick (polled w), by simp only [pollReply, if_pos ht], rfl⟩
  | succ j ih =>
    intro fuel start w hfuel hearly hlate
    obtain ⟨f, rfl⟩ : ∃ f, fuel = f + 1 := ⟨fuel - 1, by omega⟩
    by_cases ht : sub32 (millis (polled w)) start > 1000
    · exact ⟨tick (polled w), by simp only [pollReply, if_pos ht], rfl⟩
    · have hs : ¬ parsePacket w = 48 := by simpa [parsePacket] using hearly 0 (by omega)
      obtain ⟨w1, hrec, hsent⟩ := ih f start (tick (polled w)) (by omega)
        (by
          intro i hi
          have := hearly (i + 1) (by omega)
          simpa [tick, polled, Nat.add_assoc, Nat.add_comm 1 i] using this)
        (by simpa [tick, polled, Nat.add_assoc, Nat.add_comm 1 j] using hlate)
      refine ⟨w1, ?_, hsent⟩
      simp only [pollReply, if_neg ht, if_neg hs]
      exact hrec

/-! ## Synchronisation -/

/-- What `ntpUpdate` does when the loop is left at poll `j` with `size == 48`. -/
theorem ntpUpdate_of_reply (s : NTP) (w : World) (fuel j : Nat) (hfuel : j < fuel)
    (hearly : ∀ i, i < j → sizeAt w i ≠ 48 ∧ elapsedAt w i ≤ 1000)
    (hsize : sizeAt w j = 48) (htime : elapsedAt w j ≤ 1000) :
    ∃ w1 : World, w1.datagram (w1.polls - 1) = replyAt w j ∧ millis w1 = acceptTick w j
      ∧ ntpUpdate fuel s w
        = (if timestampOf (udpRead s.ntpQuery w1) ≠ 0 then
            some (true,
              { s with lastUpdate := millis w1, ntpQuery := udpRead s.ntpQuery w1,
                       ntpTime := timestampOf (udpRead s.ntpQuery w1),
                       utcTime := sub32 (timestampOf (udpRead s.ntpQuery w1)) SEVENTYYEARS },
              tick w1)
           else
            some (false,
              { s with lastUpdate := millis w1, ntpQuery := udpRead s.ntpQuery w1 },
              tick w1)) := by
  have h := pollReply_accept j fuel (millis { w with sent := w.sent ++ [s.ntpRequest] })
    (tick { w with sent := w.sent ++ [s.ntpRequest] }) hfuel
    (by
      intro i hi
      have := hearly i hi
      simpa [sizeAt, elapsedAt, tick, millis, Nat.add_assoc, Nat.add_comm 1 i] using this)
    (by simpa [sizeAt, tick] using hsize)
    (by simpa [elapsedAt, tick, millis, Nat.add_assoc, Nat.add_comm 1 j] using htime)
  refine ⟨{ w with sent := w.sent ++ [s.ntpRequest], ticks := w.ticks + 1 + j + 1,
                    polls := w.polls + j + 1 }, ?_, ?_, ?_⟩
  · simp [replyAt]
  · simp only [acceptTick, millis]
    congr 2
    omega
  · have h1 : pollReply fuel (millis { w with sent := w.sent ++ [s.ntpRequest] })
        (tick { w with sent := w.sent ++ [s.ntpRequest] })
        = some (true, { w with sent := w.sent ++ [s.ntpRequest], ticks := w.ticks + 1 + j + 1,
                               polls := w.polls + j + 1 }) := h
    unfold ntpUpdate
    simp only [h1]

/-- The instant `currentTime` derives does not depend on the daylight branch taken. -/
theorem currentTime_utcCurrent (s : NTP) (w : World) (g : Unassigned) :
    (currentTime s w g).1.utcCurrent
      = ((add32 s.utcTime (sub32 (millis w) s.lastUpdate / 1000) : Nat) : Int) := by
  unfold currentTime
  simp only
  split_ifs <;> simp [beginDST]

/-- The value of `epoch`: the unassigned `tm_isdst` has no part in it. -/
theorem epoch_fst (s : NTP) (w : World) (g : Unassigned) : (epoch s w g).1 = utcAt s w := by
  simp only [epoch, currentTime_utcCurrent]
  rfl

/-- Acceptance at the first poll that stores 48 in `size`: a 48 byte reply whose
big-endian value at bytes 40..43 is non-zero, found at poll `j` within the timeout, no
earlier poll having stored 48 in `size`, makes `ntpUpdate` return true with the anchor
UTC set to that value minus `SEVENTYYEARS` modulo 2^32 and the anchor tick set to the
tick of the acceptance; `epoch` read at that same tick returns the anchor UTC. -/
theorem ntpUpdate_accepts_first_size_48 (s : NTP) (w : World) (fuel j : Nat)
    (hfuel : j < fuel)
    (hearly : ∀ i, i < j → sizeAt w i ≠ 48 ∧ elapsedAt w i ≤ 1000)
    (hlen : (replyAt w j).length = 48)
    (hbytes : ∀ b ∈ replyAt w j, b < 256)
    (htime : elapsedAt w j ≤ 1000)
    (hts : bigEndian32 ((replyAt w j).getD 40 0) ((replyAt w j).getD 41 0)
            ((replyAt w j).getD 42 0) ((replyAt w j).getD 43 0) ≠ 0) :
    ∃ (s1 : NTP) (w1 : World), ntpUpdate fuel s w = some (true, s1, w1)
      ∧ (s1.utcTime : Int)
          = ((bigEndian32 ((replyAt w j).getD 40 0) ((replyAt w j).getD 41 0)
                ((replyAt w j).getD 42 0) ((replyAt w j).getD 43 0) : Nat)
              - (SEVENTYYEARS : Int)) % (UINT32 : Int)
      ∧ s1.lastUpdate = acceptTick w j
      ∧ ∀ (v : World) (g : Unassigned), millis v = s1.lastUpdate →
          (epoch s1 v g).1 = (s1.utcTime : Int) := by
  obtain ⟨w1, hdg, hmil, hrun⟩ := ntpUpdate_of_reply s w fuel j hfuel hearly
    (by simp [sizeAt, replyAt] at hlen ⊢; rw [hlen]) htime
  have hstamp := timestampOf_udpRead s.ntpQuery w1 (by rw [hdg]; exact hlen)
    (by rw [hdg]; exact hbytes)
  rw [hdg] at hstamp
  rw [hstamp, if_pos hts] at hrun
  refine ⟨_, _, hrun, ?_, hmil, ?_⟩
  · have hlt : bigEndian32 ((replyAt w j).getD 40 0) ((replyAt w j).getD 41 0)
        ((replyAt w j).getD 42 0) ((replyAt w j).getD 43 0) < UINT32 := by
      rw [← hstamp]
      exact Nat.mod_lt _ (by decide)
    simp only [sub32, SEVENTYYEARS, UINT32] at hlt ⊢
    omega
  · intro v g hv
    have hv1 : millis v = millis w1 := hv
    have h0 : sub32 (millis v) (millis w1) = 0 := by
      rw [hv1]
      exact sub32_self (millis w1)
    simp only [epoch, currentTime_utcCurrent]
    rw [h0, add32_zero_div _ (sub32_lt _ _)]

/-- Nothing on two polls, then a reply stamped with the NTP seconds of 2024-06-15
12:00:00 UTC. -/
theorem ntpUpdate_accepts_first_size_48_witness :
    ∃ (s1 : NTP) (w1 : World), ntpUpdate 5 fresh juneWorld = some (true, s1, w1)
      ∧ (s1.utcTime : Int)
          = ((bigEndian32 0xEA 0x18 0x00 0xC0 : Nat) - (SEVENTYYEARS : Int)) % (UINT32 : Int)
      ∧ s1.lastUpdate = 104
      ∧ ∀ (v : World) (g : Unassigned), millis v = s1.lastUpdate →
          (epoch s1 v g).1 = (s1.utcTime : Int) :=
  ntpUpdate_accepts_first_size_48 fresh juneWorld 5 2 (by decide) (by decide) (by decide)
    (by decide) (by decide) (by decide)

set_option maxRecDepth 8000 in
/-- C1, the code at a failing input: the first poll finds a datagram of 304 zero bytes,
the second a 48 byte reply stamped 0xEA1800C0 (non-zero), 2 ms after the request.
`uint8_t size` holds 304 mod 256 = 48 at the first poll, the loop is left, the zero
bytes are parsed and `ntpUpdate` returns false with the anchor UTC still 0: the reply
is never polled (one poll made). -/
theorem ntpUpdate_reply_behind_304_bytes :
    ((hiddenReplyWorld.datagram 0).length, hiddenReplyWorld.datagram 1,
        bigEndian32 0xEA 0x18 0x00 0xC0, elapsedAt hiddenReplyWorld 1)
      = (304, replyWith 0xEA 0x18 0x00 0xC0, 3927441600, 2)
    ∧ (ntpUpdate 5 fresh hiddenReplyWorld).map
        (fun r => (r.1, r.2.1.utcTime, r.2.1.ntpTime, r.2.2.polls))
      = some (false, 0, 0, 1) := by
  constructor <;> decide

/-- C2, the code at a failing input: the object was synchronised at tick 1000 to
1718452800; a reply whose bytes 40..43 are zero is accepted at tick 61005. The call
returns false and keeps `utcTime`, but `lastUpdate` has moved from 1000 to 61005, so
`epoch` at tick 62000 reads 1718452800 where it read 1718452861 before the call
(whatever the unassigned `tm_isdst` holds). -/
theorem ntpUpdate_zero_reply_moves_lastUpdate (g : Unassigned) :
    (ntpUpdate 3 { fresh with utcTime := 1718452800, lastUpdate := 1000 }
        (worldOf (fun k => if k < 2 then 61000 else if k = 2 then 61005 else 62000)
          (fun _ => replyWith 0 0 0 0))).map
        (fun r => (r.1, r.2.1.utcTime, r.2.1.lastUpdate, millis r.2.2,
                   (epoch r.2.1 r.2.2 g).1))
      = some (false, 1718452800, 61005, 62000, 1718452800)
    ∧ (epoch { fresh with utcTime := 1718452800, lastUpdate := 1000 }
        (worldOf (fun _ => 62000) (fun _ => [])) g).1 = 1718452861 := by
  simp only [epoch_fst]
  constructor <;> decide

/-- The timeout when no poll has stored 48 in `size`: when a poll measures more than
1000 ms since the request was sent and no earlier poll has stored 48 in `size`,
`ntpUpdate` returns false and the object is left as it was (anchor UTC, anchor tick and
raw NTP timestamp included). -/
theorem ntpUpdate_timeout_without_size_48 (s : NTP) (w : World) (fuel j : Nat)
    (hfuel : j < fuel)
    (hnone : ∀ i, i < j → sizeAt w i ≠ 48)
    (hlate : elapsedAt w j > 1000) :
    ∃ (s1 : NTP) (w1 : World), ntpUpdate fuel s w = some (false, s1, w1)
      ∧ s1 = s ∧ s1.utcTime = s.utcTime ∧ s1.lastUpdate = s.lastUpdate
      ∧ s1.ntpTime = s.ntpTime := by
  obtain ⟨w1, h, _⟩ := pollReply_timeout j fuel
    (millis { w with sent := w.sent ++ [s.ntpRequest] })
    (tick { w with sent := w.sent ++ [s.ntpRequest] }) hfuel
    (by
      intro i hi
      have := hnone i hi
      simpa [sizeAt, tick] using this)
    (by simpa [elapsedAt, tick, millis, Nat.add_assoc, Nat.add_comm 1 j] using hlate)
  refine ⟨s, w1, ?_, rfl, rfl, rfl, rfl⟩
  unfold ntpUpdate
  simp only [h]

/-- No datagram ever arrives and the fourth poll reads 1600 ms after the request. -/
theorem ntpUpdate_timeout_without_size_48_witness :
    ∃ (s1 : NTP) (w1 : World), ntpUpdate 9 fresh silentWorld = some (false, s1, w1)
      ∧ s1 = fresh ∧ s1.utcTime = fresh.utcTime ∧ s1.lastUpdate = fresh.lastUpdate
      ∧ s1.ntpTime = fresh.ntpTime :=
  ntpUpdate_timeout_without_size_48 fresh silentWorld 9 3 (by decide) (by decide)
    (by decide)

set_option maxRecDepth 8000 in
/-- C3, the code at a failing input: no 48 byte datagram ever arrives; the second poll,
800 ms after the request, finds a datagram of 304 bytes, and the third poll reads 1200
ms. `uint8_t size` holds 304 mod 256 = 48 at the second poll, the loop is left before
the timeout, and `ntpUpdate` returns true with utcTime, lastUpdate and ntpTime changed
from 0, 0, 0 to 1718452800, 1200, 3927441600. -/
theorem ntpUpdate_304_bytes_beat_timeout :
    ((List.range 9).map (fun k => (lateOversizeWorld.datagram k).length),
        (List.range 3).map (fun k => elapsedAt lateOversizeWorld k))
      = ([0, 304, 0, 0, 0, 0, 0, 0, 0], [400, 800, 1200])
    ∧ (fresh.utcTime, fresh.lastUpdate, fresh.ntpTime) = (0, 0, 0)
    ∧ (ntpUpdate 9 fresh lateOversizeWorld).map
        (fun r => (r.1, r.2.1.utcTime, r.2.1.lastUpdate, r.2.1.ntpTime))
      = some (true, 1718452800, 1200, 3927441600) := by
  refine ⟨?_, ?_, ?_⟩ <;> decide

/-- C4, a counterexample: a successful sync on a reply stamped 0x83AA7E7F leaves the
anchor (4294967295, tick 100); `epoch` called at tick 1100, 1000 ms later with no sync
in between, returns 0 and not 4294967295 + 1. -/
theorem epoch_wraps_at_uint32 :
    (ntpUpdate 1 fresh wrapWorld).map
        (fun r => (r.1, r.2.1.utcTime, r.2.1.lastUpdate, millis r.2.2,
                   (epoch r.2.1 r.2.2 ⟨0, 0⟩).1))
      = some (true, 4294967295, 100, 1100, 0) := by
  decide

/-- C4, amended: `epoch` called `d` milliseconds (`d` below 2^32) after the anchor tick,
with no sync in between, returns (utcTime + floor(d/1000)) modulo 2^32, also when the
tick counter has wrapped past zero since the sync; this is utcTime + floor(d/1000)
whenever that sum is below 2^32. -/
theorem epoch_after_sync (s : NTP) (v : World) (g : Unassigned) (d : Nat) (hd : d < UINT32)
    (hv : millis v = (s.lastUpdate + d) % UINT32) :
    (epoch s v g).1 = (((s.utcTime + d / 1000) % UINT32 : Nat) : Int)
      ∧ (s.utcTime + d / 1000 < UINT32 →
          (epoch s v g).1 = (s.utcTime : Int) + (d / 1000 : Nat)) := by
  have he : (epoch s v g).1 = (((s.utcTime + d / 1000) % UINT32 : Nat) : Int) := by
    simp only [epoch, currentTime_utcCurrent]
    rw [hv, sub32_add _ _ hd]
    rfl
  refine ⟨he, fun hlt => ?_⟩
  rw [he, Nat.mod_eq_of_lt hlt]
  push_cast
  rfl

/-- C4 amended, at a concrete input: anchor tick 4294967000, read 5296 ms later, after
the tick counter has wrapped to 5000. -/
theorem epoch_after_sync_witness :
    (epoch { fresh with utcTime := 1718452800, lastUpdate := 4294967000 }
        (worldOf (fun _ => 5000) (fun _ => [])) ⟨0, 0⟩).1
        = (((1718452800 + 5296 / 1000) % UINT32 : Nat) : Int)
      ∧ (1718452800 + 5296 / 1000 < UINT32 →
          (epoch { fresh with utcTime := 1718452800, lastUpdate := 4294967000 }
            (worldOf (fun _ => 5000) (fun _ => [])) ⟨0, 0⟩).1
            = ((1718452800 : Nat) : Int) + (5296 / 1000 : Nat)) :=
  epoch_after_sync { fresh with utcTime := 1718452800, lastUpdate := 4294967000 }
    (worldOf (fun _ => 5000) (fun _ => [])) ⟨0, 0⟩ 5296 (by decide) (by decide)

/-- C5, a counterexample: on an object that never synchronised (anchor UTC 0, anchor
tick 0) `epoch` returns 1 at tick 1000. -/
theorem epoch_unsynchronised_not_zero : (epoch fresh bootWorld ⟨0, 0⟩).1 = 1 := by
  decide

/-- C5, amended: with anchor UTC 0 and anchor tick 0, `epoch` returns the whole seconds
of the tick counter, floor(tick/1000); it is 0 exactly while the tick is below 1000. -/
theorem epoch_unsynchronised (s : NTP) (w : World) (g : Unassigned) (hutc : s.utcTime = 0)
    (hlast : s.lastUpdate = 0) :
    (epoch s w g).1 = ((millis w / 1000 : Nat) : Int)
      ∧ ((epoch s w g).1 = 0 ↔ millis w < 1000) := by
  have hm := millis_lt w
  have he : (epoch s w g).1 = ((millis w / 1000 : Nat) : Int) := by
    simp only [epoch, currentTime_utcCurrent, hutc, hlast]
    unfold add32 sub32 UINT32 at *
    congr 1
    omega
  refine ⟨he, ?_⟩
  rw [he]
  constructor
  · intro h
    have : millis w / 1000 = 0 := by exact_mod_cast h
    omega
  · intro h
    have : millis w / 1000 = 0 := by omega
    rw [this]
    rfl

/-- C5 amended, at a concrete input: the fresh object read at tick 1000. -/
theorem epoch_unsynchronised_witness :
    (epoch fresh bootWorld ⟨0, 0⟩).1 = ((millis bootWorld / 1000 : Nat) : Int)
      ∧ ((epoch fresh bootWorld ⟨0, 0⟩).1 = 0 ↔ millis bootWorld < 1000) :=
  epoch_unsynchronised fresh bootWorld ⟨0, 0⟩ rfl rfl

/-! ## Daylight saving time -/

/-- C10: `summerTime` is true if and only if utcDST < utcCurrent ≤ utcSTD; an instant
equal to the enter instant is standard time, and an instant equal to the exit instant
of a window that is not empty is daylight time. -/
theorem summerTime_iff (s : NTP) :
    (summerTime s = true ↔ s.utcDST < s.utcCurrent ∧ s.utcCurrent ≤ s.utcSTD)
      ∧ (s.utcCurrent = s.utcDST → summerTime s = false)
      ∧ (s.utcDST < s.utcSTD → s.utcCurrent = s.utcSTD → summerTime s = true) := by
  unfold summerTime
  refine ⟨?_, ?_, ?_⟩
  · by_cases h : s.utcCurrent > s.utcDST ∧ s.utcCurrent ≤ s.utcSTD
    · simp only [if_pos h, true_iff]
      exact h
    · simp only [if_neg h, Bool.false_eq_true, false_iff]
      exact h
  · intro h
    rw [if_neg]
    omega
  · intro h1 h2
    rw [if_pos]
    omega

/-- C10, at the two ends of the window 1711846800 .. 1729990800. -/
theorem summerTime_iff_witness :
    summerTime { fresh with utcDST := 1711846800, utcSTD := 1729990800,
                            utcCurrent := 1711846800 } = false
      ∧ summerTime { fresh with utcDST := 1711846800, utcSTD := 1729990800,
                                utcCurrent := 1729990800 } = true :=
  ⟨(summerTime_iff _).2.1 rfl, (summerTime_iff _).2.2 (by decide) rfl⟩

/-! ## Frames and termination -/

/-- The loop sends nothing. -/
theorem pollReply_sent (fuel : Nat) :
    ∀ (start : Nat) (w : World) (b : Bool) (w1 : World),
      pollReply fuel start w = some (b, w1) → w1.sent = w.sent := by
  induction fuel with
  | zero =>
    intro start w b w1 h
    simp [pollReply] at h
  | succ f ih =>
    intro start w b w1 h
    simp only [pollReply] at h
    split_ifs at h with h1 h2
    · cases h
      rfl
    · cases h
      rfl
    · exact ih start (tick (polled w)) b w1 h

/-- The loop is left, one way or the other, by the first poll that measures more than
1000 ms or sees 48. -/
theorem pollReply_returns (j : Nat) :
    ∀ (fuel start : Nat) (w : World), j < fuel →
      (sub32 (w.clock (w.ticks + j) % UINT32) start > 1000
        ∨ (w.datagram (w.polls + j)).length % 256 = 48) →
      ∃ (b : Bool) (w1 : World), pollReply fuel start w = some (b, w1) := by
  induction j with
  | zero =>
    intro fuel start w hfuel hstop
    obtain ⟨f, rfl⟩ : ∃ f, fuel = f + 1 := ⟨fuel - 1, by omega⟩
    simp only [pollReply]
    split_ifs with h1 h2
    · exact ⟨_, _, rfl⟩
    · exact ⟨_, _, rfl⟩
    · exfalso
      rcases hstop with h | h
      · exact h1 (by simpa [millis, polled] using h)
      · exact h2 (by simpa [parsePacket] using h)
  | succ j ih =>
    intro fuel start w hfuel hstop
    obtain ⟨f, rfl⟩ : ∃ f, fuel = f + 1 := ⟨fuel - 1, by omega⟩
    simp only [pollReply]
    split_ifs with h1 h2
    · exact ⟨_, _, rfl⟩
    · exact ⟨_, _, rfl⟩
    · exact ih f start (tick (polled w)) (by omega)
        (by simpa [tick, polled, Nat.add_assoc, Nat.add_comm 1 j] using hstop)

/-- What a call of `ntpUpdate` that returns leaves alone, and what it sends. -/
theorem ntpUpdate_frame (fuel : Nat) (s : NTP) (w : World) (b : Bool) (s1 : NTP)
    (w1 : World) (h : ntpUpdate fuel s w = some (b, s1, w1)) :
    s1 = { s with lastUpdate := s1.lastUpdate, ntpQuery := s1.ntpQuery,
                  ntpTime := s1.ntpTime, utcTime := s1.utcTime }
      ∧ w1.sent = w.sent ++ [s.ntpRequest] := by
  unfold ntpUpdate at h
  simp only at h
  split at h
  · cases h
  · rename_i w2 hp
    cases h
    exact ⟨rfl, pollReply_sent _ _ _ _ _ hp⟩
  · rename_i w2 hp
    have hs := pollReply_sent _ _ _ _ _ hp
    split_ifs at h <;> cases h <;> exact ⟨rfl, by simpa [tick] using hs⟩

/-- A call of `ntpUpdate` returns when some poll within the fuel measures more than
1000 ms or sees 48. -/
theorem ntpUpdate_returns (fuel : Nat) (s : NTP) (w : World) (j : Nat) (hfuel : j < fuel)
    (hstop : elapsedAt w j > 1000 ∨ sizeAt w j = 48) :
    ∃ (b : Bool) (s1 : NTP) (w1 : World), ntpUpdate fuel s w = some (b, s1, w1) := by
  obtain ⟨b, w1, hp⟩ := pollReply_returns j fuel
    (millis { w with sent := w.sent ++ [s.ntpRequest] })
    (tick { w with sent := w.sent ++ [s.ntpRequest] }) hfuel
    (by simpa [elapsedAt, sizeAt, tick, millis, Nat.add_assoc, Nat.add_comm 1 j] using hstop)
  unfold ntpUpdate
  simp only [hp]
  cases b
  · exact ⟨_, _, _, rfl⟩
  · simp only
    split_ifs
    · exact ⟨_, _, _, rfl⟩
    · exact ⟨_, _, _, rfl⟩

/-- What `beginDST` leaves alone: everything but the window and its year. -/
theorem beginDST_frame (s : NTP) (g : Unassigned) :
    beginDST s g
      = { s with dstTime := (beginDST s g).dstTime, utcDST := (beginDST s g).utcDST,
                 stdTime := (beginDST s g).stdTime, utcSTD := (beginDST s g).utcSTD,
                 yearDST := (beginDST s g).yearDST } := by
  rcases Option.eq_none_or_eq_some s.current with hc | ⟨tm, hc⟩
  · have h : beginDST s g = s := by simp only [beginDST, hc]
    rw [h]
  · simp only [beginDST, hc]

/-- The test of `summerTime`. -/
theorem summerTime_true (s : NTP) :
    summerTime s = true ↔ s.utcDST < s.utcCurrent ∧ s.utcCurrent ≤ s.utcSTD := by
  unfold summerTime
  split_ifs with h
  · simpa using h
  · simpa using h

/-- The state `currentTime` leaves: the derived instants are stored, and the window is
recomputed after that when the rules are active and the civil year derived is beyond
the cached one. -/
theorem currentTime_eq (s : NTP) (w : World) (g : Unassigned) :
    (currentTime s w g).1
        = (if (s.dstZone && s.dstRuleConfigured && s.stdRuleConfigured) = true
              ∧ (gmtime (localAt s w)).tm_year + 1900 > s.yearDST then
            beginDST { s with utcCurrent := utcAt s w, localTime := localAt s w,
                              current := some (gmtime (localAt s w)) } g
           else { s with utcCurrent := utcAt s w, localTime := localAt s w,
                         current := some (gmtime (localAt s w)) })
      ∧ (currentTime s w g).2 = tick w := by
  unfold currentTime localAt utcAt
  simp only
  split_ifs <;> simp_all

/-- The instants `currentTime` stores. -/
theorem currentTime_derived (s : NTP) (w : World) (g : Unassigned) :
    (currentTime s w g).1.utcCurrent = utcAt s w
      ∧ (currentTime s w g).1.localTime = localAt s w
      ∧ (currentTime s w g).1.current = some (gmtime (localAt s w)) := by
  obtain ⟨he, _⟩ := currentTime_eq s w g
  rw [he]
  split_ifs
  · rw [beginDST_frame]
    exact ⟨rfl, rfl, rfl⟩
  · exact ⟨rfl, rfl, rfl⟩

/-- What `currentTime` leaves alone: everything but the derived instants and the
window. -/
theorem currentTime_frame (s : NTP) (w : World) (g : Unassigned) :
    (currentTime s w g).1
      = { s with utcCurrent := utcAt s w, localTime := localAt s w,
                 current := some (gmtime (localAt s w)),
                 dstTime := (currentTime s w g).1.dstTime,
                 utcDST := (currentTime s w g).1.utcDST,
                 stdTime := (currentTime s w g).1.stdTime,
                 utcSTD := (currentTime s w g).1.utcSTD,
                 yearDST := (currentTime s w g).1.yearDST } := by
  obtain ⟨he, _⟩ := currentTime_eq s w g
  rw [he]
  split_ifs
  · rw [beginDST_frame]
  · rfl

/-- The value of `year`. -/
theorem year_eq (s : NTP) (w : World) (g : Unassigned) :
    (year s w g).1 = (gmtime (localAt s w)).tm_year + 1900 := by
  simp only [year, (currentTime_derived s w g).2.2]

/-- The value of `hours`. -/
theorem hours_fst (s : NTP) (w : World) (g : Unassigned) :
    (hours s w g).1 = (gmtime (localAt s w)).tm_hour := by
  simp only [hours, (currentTime_derived s w g).2.2]

/-- What `init` returns once its call of `ntpUpdate` has returned. -/
theorem init_eq (fuel : Nat) (s : NTP) (w : World) (g1 g2 : Unassigned) (b : Bool)
    (s1 : NTP) (w1 : World)
    (h : ntpUpdate fuel { s with ntpRequest := requestTemplate } w = some (b, s1, w1)) :
    init fuel s w g1 g2
      = some (if (s.dstZone && s.dstRuleConfigured && s.stdRuleConfigured) = true then
          (beginDST (currentTime
              { s1 with timezoneOffset := s.dstEnd.tzOffset * 60,
                        dstOffset := (s.dstStart.tzOffset - s.dstEnd.tzOffset) * 60 }
              w1 g1).1 g2,
            tick w1)
        else (s1, w1)) := by
  obtain ⟨hf, _⟩ := ntpUpdate_frame fuel _ w b s1 w1 h
  have h1 : s1.dstZone = s.dstZone := by rw [hf]
  have h2 : s1.dstRuleConfigured = s.dstRuleConfigured := by rw [hf]
  have h3 : s1.stdRuleConfigured = s.stdRuleConfigured := by rw [hf]
  have h4 : s1.dstStart = s.dstStart := by rw [hf]
  have h5 : s1.dstEnd = s.dstEnd := by rw [hf]
  unfold init
  simp only [h, h1, h2, h3, h4, h5, SECS_PER_MINUTES, (currentTime_eq _ _ _).2]
  split_ifs <;> rfl

/-! ## The unassigned `tm_isdst` -/

/-- The hour `mktime` takes off depends on the sign of `tm_isdst` only. -/
theorem isdstShift_sign (x : Int) :
    isdstShift (if decide (x > 0) = true then 1 else 0) = isdstShift x := by
  unfold isdstShift
  by_cases h : x > 0
  · simp [h]
  · simp [h]

theorem calcDateDST_sign (rule : RuleDST) (year x : Int) :
    calcDateDST rule year (if decide (x > 0) = true then 1 else 0) = calcDateDST rule year x := by
  simp only [calcDateDST, mktime, isdstShift_sign]

/-- Member `beginDST` reads the signs of the unassigned values only. -/
theorem beginDST_signs (s : NTP) (g : Unassigned) : beginDST s (signs g) = beginDST s g := by
  simp only [beginDST, signs, ofBits, calcDateDST_sign]

theorem currentTime_signs (s : NTP) (w : World) (g : Unassigned) :
    currentTime s w (signs g) = currentTime s w g := by
  simp only [currentTime, beginDST_signs]

theorem hours_signs (s : NTP) (w : World) (g : Unassigned) :
    hours s w (signs g) = hours s w g := by
  simp only [hours, currentTime_signs]

theorem init_signs (fuel : Nat) (s : NTP) (w : World) (g1 g2 : Unassigned) :
    init fuel s w (signs g1) (signs g2) = init fuel s w g1 g2 := by
  simp only [init, currentTime_signs, beginDST_signs]

/-- The query `isDST()` after `isDST(false)` for the signs the unassigned values can
have. -/
theorem isDST_after_setDST_bits : ∀ a b c d e f : Bool,
    (init 5 cetObject juneWorld (ofBits a b) (ofBits c d)).map
        (fun r => ((setDST r.1 false).dstZone, isDST (setDST r.1 false),
                   (hours (setDST r.1 false) r.2 (ofBits e f)).1))
      = some (false, true, 13) := by
  intro a b c d e f
  cases a <;> cases b <;> cases c <;> cases d <;> cases e <;> cases f <;> decide

/-- C9, the code at a failing input: after `init` in June 2024 with both rules
configured, DST observance is switched off with `isDST(false)`; the query `isDST()`
still returns true, while `hours` (through `currentTime`, which tests the flags) no
longer applies the daylight offset and returns 13; all this whatever the unassigned
`tm_isdst` holds in any call. -/
theorem isDST_ignores_dstZone (g1 g2 g3 : Unassigned) :
    (init 5 cetObject juneWorld g1 g2).map
        (fun r => ((setDST r.1 false).dstZone, isDST (setDST r.1 false),
                   (hours (setDST r.1 false) r.2 g3).1))
      = some (false, true, 13) := by
  have h := isDST_after_setDST_bits (decide (g1.enter > 0)) (decide (g1.exit > 0))
    (decide (g2.enter > 0)) (decide (g2.exit > 0)) (decide (g3.enter > 0))
    (decide (g3.exit > 0))
  have h1 : ∀ g : Unassigned, ofBits (decide (g.enter > 0)) (decide (g.exit > 0)) = signs g :=
    fun _ => rfl
  simpa only [h1, init_signs, hours_signs] using h

/-! ## The rule setters and the window -/

/-- An argument in -128..127 reaches an `int8_t` parameter as it is. -/
theorem int8_of_range (x : Int) (h0 : -128 ≤ x) (h1 : x ≤ 127) : int8 x = x := by
  unfold int8
  omega

/-- C11, a counterexample: the argument 256 for week, which is outside 0..4, reaches
the `int8_t` parameter as 0; `ruleDST` and `ruleSTD` store the rule with week 0 and set
their configured flags on an object whose rules were never set. -/
theorem rule_setters_accept_256 :
    ((ruleDST fresh "CEST".toList 256 0 2 2 120).dstRuleConfigured,
        (ruleDST fresh "CEST".toList 256 0 2 2 120).dstStart, fresh.dstRuleConfigured)
      = (true, ⟨"CEST".toList, 0, 0, 2, 2, 120⟩, false)
    ∧ ((ruleSTD fresh "CET".toList 256 0 9 3 60).stdRuleConfigured,
        (ruleSTD fresh "CET".toList 256 0 9 3 60).dstEnd, fresh.stdRuleConfigured)
      = (true, ⟨"CET".toList, 0, 0, 9, 3, 60⟩, false) := by
  constructor <;> decide

/-- C11, amended: when the value an `int8_t` parameter receives (the argument itself
when it is in -128..127) is outside 0..4 for week, or outside 0..6 for the weekday, or
outside 0..11 for the month, or outside 0..23 for the hour, `ruleDST(...)` and
`ruleSTD(...)` return the object as it was: rule fields, name and configured flags keep
their previous values. -/
theorem rule_setters_ignore_out_of_range (s : NTP) (tzName : List Char)
    (week wday month hour tzOffset : Int)
    (h : int8 week < 0 ∨ int8 week > 4 ∨ int8 wday < 0 ∨ int8 wday > 6 ∨ int8 month < 0
          ∨ int8 month > 11 ∨ int8 hour < 0 ∨ int8 hour > 23) :
    (ruleDST s tzName week wday month hour tzOffset = s
        ∧ ruleSTD s tzName week wday month hour tzOffset = s)
      ∧ (-128 ≤ week → week ≤ 127 → int8 week = week)
      ∧ (-128 ≤ wday → wday ≤ 127 → int8 wday = wday)
      ∧ (-128 ≤ month → month ≤ 127 → int8 month = month)
      ∧ (-128 ≤ hour → hour ≤ 127 → int8 hour = hour) := by
  refine ⟨?_, int8_of_range week, int8_of_range wday, int8_of_range month,
    int8_of_range hour⟩
  unfold ruleDST ruleSTD
  constructor
  · split_ifs <;> first | rfl | (exfalso; omega)
  · split_ifs <;> first | rfl | (exfalso; omega)

/-- C11 amended, at a concrete input: week 5 on an object whose rules were never set;
the configured flags stay false. -/
theorem rule_setters_ignore_out_of_range_witness :
    (ruleDST fresh "CEST".toList 5 0 2 2 120 = fresh
        ∧ ruleSTD fresh "CEST".toList 5 0 2 2 120 = fresh)
      ∧ (ruleDST fresh "CEST".toList 5 0 2 2 120).dstRuleConfigured = false
      ∧ (ruleSTD fresh "CEST".toList 5 0 2 2 120).stdRuleConfigured = false
      ∧ int8 5 = 5 :=
  ⟨(rule_setters_ignore_out_of_range fresh "CEST".toList 5 0 2 2 120 (by decide)).1,
    by decide, by decide, by decide⟩

/-- C12: with `current` holding the fields of civil year Y = tm_year + 1900,
`beginDST` sets utcDST to calcDateDST(dstStart, Y) minus the exit rule offset in
seconds, utcSTD to calcDateDST(dstEnd, Y) minus the enter rule offset in seconds, and
yearDST to Y, whatever the two calls of `calcDateDST` find in the unassigned
`tm_isdst`. -/
theorem beginDST_window (s : NTP) (g : Unassigned) (tm : Tm) (hcur : s.current = some tm) :
    (beginDST s g).utcDST
        = calcDateDST s.dstStart (tm.tm_year + 1900) g.enter - s.dstEnd.tzOffset * 60
      ∧ (beginDST s g).utcSTD
        = calcDateDST s.dstEnd (tm.tm_year + 1900) g.exit - s.dstStart.tzOffset * 60
      ∧ (beginDST s g).yearDST = tm.tm_year + 1900 := by
  unfold beginDST
  rw [hcur]
  exact ⟨rfl, rfl, rfl⟩

/-- C12, at a concrete input: the central European rules in 2024, with 1 found in
`tm_isdst` by the call for the enter rule and 0 by the call for the exit rule. -/
theorem beginDST_window_witness :
    (beginDST juneObject ⟨1, 0⟩).utcDST = calcDateDST lastSundayMarch 2024 1 - 60 * 60
      ∧ (beginDST juneObject ⟨1, 0⟩).utcSTD = calcDateDST lastSundayOctober 2024 0 - 120 * 60
      ∧ (beginDST juneObject ⟨1, 0⟩).yearDST = 2024 :=
  beginDST_window juneObject ⟨1, 0⟩ (gmtime 1718460000) rfl

/-- The year boundary for the signs the unassigned values can have: see
`year_boundary_any_unassigned`. -/
theorem year_boundary_bits : ∀ a b c d e f p q : Bool,
    (init 5 januaryObject newYearsDayWorld (ofBits a b) (ofBits c d)).map
        (fun r => (r.1.yearDST, (hours r.1 r.2 (ofBits e f)).1,
                   (hours r.1 r.2 (ofBits e f)).2.1.utcCurrent,
                   (hours r.1 r.2 (ofBits e f)).2.1.localTime))
      = some (2022, 23, 1672612200, 1672615800)
    ∧ (init 5 januaryObject newYearsDayWorld (ofBits a b) (ofBits c d)).map
        (fun r => ((hours r.1 r.2 (ofBits e f)).2.1.yearDST,
                   isDST (hours r.1 r.2 (ofBits e f)).2.1,
                   (hours (hours r.1 r.2 (ofBits e f)).2.1 (hours r.1 r.2 (ofBits e f)).2.2
                      (ofBits p q)).1,
                   (hours (hours r.1 r.2 (ofBits e f)).2.1 (hours r.1 r.2 (ofBits e f)).2.2
                      (ofBits p q)).2.1.localTime))
      = some (2023, true, 0, 1672619400) := by
  intro a b c d e f p q
  cases a <;> cases b <;> cases c <;> cases d <;> cases e <;> cases f <;> cases p <;>
    cases q <;> exact ⟨by decide, by decide⟩

/-- The year boundary, whatever the unassigned `tm_isdst` holds in any call: daylight
time starts on the first Sunday of January 00:00 (+120 min) and ends on the last Sunday
of October 03:00 (+60 min); `init` at 2022-12-31 22:00:00 UTC caches a window of 2022.
The query `hours` 24 h 30 min later, at 2023-01-01 22:30:00 UTC, derives the local time
1672615800 = 2023-01-01 23:30 (standard time, by the window of 2022) and returns 23;
it leaves yearDST 2023 and a window by which `isDST` is true, and the same query
repeated returns 0, from the local time 1672619400 = 2023-01-02 00:30. -/
theorem year_boundary_any_unassigned (g1 g2 g3 g4 : Unassigned) :
    (init 5 januaryObject newYearsDayWorld g1 g2).map
        (fun r => (r.1.yearDST, (hours r.1 r.2 g3).1, (hours r.1 r.2 g3).2.1.utcCurrent,
                   (hours r.1 r.2 g3).2.1.localTime))
      = some (2022, 23, 1672612200, 1672615800)
    ∧ (init 5 januaryObject newYearsDayWorld g1 g2).map
        (fun r => ((hours r.1 r.2 g3).2.1.yearDST, isDST (hours r.1 r.2 g3).2.1,
                   (hours (hours r.1 r.2 g3).2.1 (hours r.1 r.2 g3).2.2 g4).1,
                   (hours (hours r.1 r.2 g3).2.1 (hours r.1 r.2 g3).2.2 g4).2.1.localTime))
      = some (2023, true, 0, 1672619400) := by
  have h := year_boundary_bits (decide (g1.enter > 0)) (decide (g1.exit > 0))
    (decide (g2.enter > 0)) (decide (g2.exit > 0)) (decide (g3.enter > 0))
    (decide (g3.exit > 0)) (decide (g4.enter > 0)) (decide (g4.exit > 0))
  have h1 : ∀ g : Unassigned, ofBits (decide (g.enter > 0)) (decide (g.exit > 0)) = signs g :=
    fun _ => rfl
  simpa only [h1, init_signs, hours_signs] using h

/-- C13, a counterexample: daylight time starts on the first Sunday of January 00:00
(+120 min) and ends on the last Sunday of October 03:00 (+60 min); `init` at
2022-12-31 22:00:00 UTC caches a window of 2022. The query `hours` 24 h 30 min later,
at 2023-01-01 22:30:00 UTC, derives the local time 1672615800 = 2023-01-01 23:30 with
the window of 2022 (standard time) and returns 23; it then recomputes the window for
2023, whose enter instant (1672527600 when the call for the enter rule finds 0 in the
unassigned `tm_isdst`, 1672610400 when it finds 1) is before the queried instant
1672612200, so that `isDST` is true and the same query repeated returns 0, from the
local time 1672619400 = 2023-01-02 00:30. -/
theorem year_boundary_query_uses_stale_window :
    ((init 5 januaryObject newYearsDayWorld ⟨0, 0⟩ ⟨0, 0⟩).map
        (fun r => (r.1.yearDST, (hours r.1 r.2 ⟨0, 0⟩).1,
                   (hours r.1 r.2 ⟨0, 0⟩).2.1.utcCurrent,
                   (hours r.1 r.2 ⟨0, 0⟩).2.1.localTime))
      = some (2022, 23, 1672612200, 1672615800)
    ∧ (init 5 januaryObject newYearsDayWorld ⟨0, 0⟩ ⟨0, 0⟩).map
        (fun r => ((hours r.1 r.2 ⟨0, 0⟩).2.1.yearDST, (hours r.1 r.2 ⟨0, 0⟩).2.1.utcDST,
                   isDST (hours r.1 r.2 ⟨0, 0⟩).2.1,
                   (hours (hours r.1 r.2 ⟨0, 0⟩).2.1 (hours r.1 r.2 ⟨0, 0⟩).2.2 ⟨0, 0⟩).1,
                   (hours (hours r.1 r.2 ⟨0, 0⟩).2.1 (hours r.1 r.2 ⟨0, 0⟩).2.2
                      ⟨0, 0⟩).2.1.localTime))
      = some (2023, 1672527600, true, 0, 1672619400))
    ∧ ((init 5 januaryObject newYearsDayWorld ⟨1, 0⟩ ⟨1, 0⟩).map
        (fun r => (r.1.yearDST, (hours r.1 r.2 ⟨1, 0⟩).1,
                   (hours r.1 r.2 ⟨1, 0⟩).2.1.utcCurrent,
                   (hours r.1 r.2 ⟨1, 0⟩).2.1.localTime))
      = some (2022, 23, 1672612200, 1672615800)
    ∧ (init 5 januaryObject newYearsDayWorld ⟨1, 0⟩ ⟨1, 0⟩).map
        (fun r => ((hours r.1 r.2 ⟨1, 0⟩).2.1.yearDST, (hours r.1 r.2 ⟨1, 0⟩).2.1.utcDST,
                   isDST (hours r.1 r.2 ⟨1, 0⟩).2.1,
                   (hours (hours r.1 r.2 ⟨1, 0⟩).2.1 (hours r.1 r.2 ⟨1, 0⟩).2.2 ⟨1, 0⟩).1,
                   (hours (hours r.1 r.2 ⟨1, 0⟩).2.1 (hours r.1 r.2 ⟨1, 0⟩).2.2
                      ⟨1, 0⟩).2.1.localTime))
      = some (2023, 1672610400, true, 0, 1672619400)) := by
  refine ⟨⟨?_, ?_⟩, ?_, ?_⟩ <;> decide

/-- C13, amended: when the rules are active and a query derives civil year Y + 1
while the cached year is Y, that query ends with one `beginDST` on the derived state:
yearDST becomes Y + 1 and the window is the one of Y + 1, by which `isDST` answers
from then on; the local time this query stores is derived with the window of Y, read
before the recomputation; a later query whose civil year is at most Y + 1 recomputes
nothing. The window of Y + 1 is what `calcDateDST` returns with the values `g` found
in the unassigned `tm_isdst`. -/
theorem currentTime_at_year_boundary (s : NTP) (w : World) (g : Unassigned)
    (hz : s.dstZone = true)
    (hd : s.dstRuleConfigured = true) (hs : s.stdRuleConfigured = true)
    (hyear : (year s w g).1 = s.yearDST + 1) :
    (currentTime s w g).1
        = beginDST { s with utcCurrent := utcAt s w, localTime := localAt s w,
                            current := some (gmtime (localAt s w)) } g
      ∧ (currentTime s w g).1.yearDST = s.yearDST + 1
      ∧ (currentTime s w g).1.utcDST
          = calcDateDST s.dstStart (s.yearDST + 1) g.enter - s.dstEnd.tzOffset * 60
      ∧ (currentTime s w g).1.utcSTD
          = calcDateDST s.dstEnd (s.yearDST + 1) g.exit - s.dstStart.tzOffset * 60
      ∧ (isDST (currentTime s w g).1 = true
          ↔ calcDateDST s.dstStart (s.yearDST + 1) g.enter - s.dstEnd.tzOffset * 60
                < (currentTime s w g).1.utcCurrent
              ∧ (currentTime s w g).1.utcCurrent
                ≤ calcDateDST s.dstEnd (s.yearDST + 1) g.exit - s.dstStart.tzOffset * 60)
      ∧ (currentTime s w g).1.localTime
          = (currentTime s w g).1.utcCurrent
            + (if s.utcDST < (currentTime s w g).1.utcCurrent
                  ∧ (currentTime s w g).1.utcCurrent ≤ s.utcSTD
               then s.dstOffset + s.timezoneOffset else s.timezoneOffset)
      ∧ ∀ (v : World) (g' : Unassigned),
          (year (currentTime s w g).1 v g').1 ≤ s.yearDST + 1 →
          (currentTime (currentTime s w g).1 v g').1.yearDST = s.yearDST + 1
            ∧ (currentTime (currentTime s w g).1 v g').1.utcDST
                = (currentTime s w g).1.utcDST
            ∧ (currentTime (currentTime s w g).1 v g').1.utcSTD
                = (currentTime s w g).1.utcSTD := by
  rw [year_eq] at hyear
  obtain ⟨he, _⟩ := currentTime_eq s w g
  have hflags : (s.dstZone && s.dstRuleConfigured && s.stdRuleConfigured) = true := by
    simp [hz, hd, hs]
  rw [if_pos ⟨hflags, by omega⟩] at he
  obtain ⟨hu, hl, _⟩ := currentTime_derived s w g
  have hy : (currentTime s w g).1.yearDST = s.yearDST + 1 := by
    rw [he]
    simp only [beginDST]
    exact hyear
  have hw1 : (currentTime s w g).1.utcDST
      = calcDateDST s.dstStart (s.yearDST + 1) g.enter - s.dstEnd.tzOffset * 60 := by
    rw [he]
    simp only [beginDST, hyear, SECS_PER_MINUTES]
  have hw2 : (currentTime s w g).1.utcSTD
      = calcDateDST s.dstEnd (s.yearDST + 1) g.exit - s.dstStart.tzOffset * 60 := by
    rw [he]
    simp only [beginDST, hyear, SECS_PER_MINUTES]
  refine ⟨he, hy, hw1, hw2, ?_, ?_, ?_⟩
  · unfold isDST
    rw [summerTime_true, hw1, hw2]
  · rw [hl, hu]
    simp only [localAt, hflags, if_true, summerTime_true]
    split_ifs <;> omega
  · intro v g' hv
    rw [year_eq] at hv
    obtain ⟨he2, _⟩ := currentTime_eq (currentTime s w g).1 v g'
    rw [if_neg (by
      rintro ⟨_, h⟩
      omega)] at he2
    rw [he2]
    exact ⟨hy, rfl, rfl⟩

/-- C13 amended, at a concrete input: the query at 2022-12-31 23:30:00 UTC on the
object holding the window of 2022, with 1 found in `tm_isdst` by the call for the enter
rule and 0 by the call for the exit rule. -/
theorem currentTime_at_year_boundary_witness :
    (currentTime newYearsEve (worldOf (fun _ => 5400100) (fun _ => [])) ⟨1, 0⟩).1.yearDST
        = 2023
      ∧ (currentTime newYearsEve (worldOf (fun _ => 5400100) (fun _ => [])) ⟨1, 0⟩).1.utcDST
          = 1672610400
      ∧ (currentTime newYearsEve (worldOf (fun _ => 5400100) (fun _ => [])) ⟨1, 0⟩).1.utcSTD
          = 1698541200 :=
  ⟨(currentTime_at_year_boundary newYearsEve (worldOf (fun _ => 5400100) (fun _ => []))
      ⟨1, 0⟩ rfl rfl rfl (by decide)).2.1,
    (currentTime_at_year_boundary newYearsEve (worldOf (fun _ => 5400100) (fun _ => []))
      ⟨1, 0⟩ rfl rfl rfl (by decide)).2.2.1,
    (currentTime_at_year_boundary newYearsEve (worldOf (fun _ => 5400100) (fun _ => []))
      ⟨1, 0⟩ rfl rfl rfl (by decide)).2.2.2.1⟩

/-- C18: `currentTime` never lowers yearDST, and when it changes yearDST the new value
is the civil year of the fields it has just stored in `current`; the accessors
`epoch`, `year`, `month`, `day`, `weekDay`, `hours`, `minutes` and `seconds` leave the
state `currentTime` leaves; all this whatever the unassigned `tm_isdst` holds. -/
theorem yearDST_never_decreases (s : NTP) (w : World) (g : Unassigned) :
    s.yearDST ≤ (currentTime s w g).1.yearDST
      ∧ ((currentTime s w g).1.yearDST = s.yearDST
          ∨ ∃ tm : Tm, (currentTime s w g).1.current = some tm
              ∧ (currentTime s w g).1.yearDST = tm.tm_year + 1900)
      ∧ (epoch s w g).2 = currentTime s w g ∧ (year s w g).2 = currentTime s w g
      ∧ (month s w g).2 = currentTime s w g ∧ (day s w g).2 = currentTime s w g
      ∧ (weekDay s w g).2 = currentTime s w g ∧ (hours s w g).2 = currentTime s w g
      ∧ (minutes s w g).2 = currentTime s w g ∧ (seconds s w g).2 = currentTime s w g := by
  obtain ⟨he, _⟩ := currentTime_eq s w g
  refine ⟨?_, ?_, rfl, rfl, rfl, rfl, rfl, rfl, rfl, rfl⟩
  · rw [he]
    split_ifs with h
    · simp only [beginDST]
      omega
    · exact le_refl _
  · rw [he]
    split_ifs with h
    · exact Or.inr ⟨gmtime (localAt s w), rfl, rfl⟩
    · exact Or.inl rfl

/-- Months are 30 or 31 days apart, February aside. -/
theorem daysBeforeMonth_bounds (m : Int) (hm0 : 0 ≤ m) (hm1 : m ≤ 11) :
    30 * m - 1 ≤ daysBeforeMonth m ∧ daysBeforeMonth m ≤ 31 * m := by
  obtain rfl | rfl | rfl | rfl | rfl | rfl | rfl | rfl | rfl | rfl | rfl | rfl :
      m = 0 ∨ m = 1 ∨ m = 2 ∨ m = 3 ∨ m = 4 ∨ m = 5 ∨ m = 6 ∨ m = 7 ∨ m = 8 ∨ m = 9
        ∨ m = 10 ∨ m = 11 := by omega
  all_goals decide

/-- A month ends before any later month of the year starts. -/
theorem month_before (y m1 m2 : Int) (h0 : 0 ≤ m1) (h12 : m1 < m2) (h2 : m2 ≤ 11) :
    daysFromCivil y m1 1 + daysInMonth y m1 ≤ daysFromCivil y m2 1 := by
  obtain ⟨_, _, hsum⟩ := daysInMonth_bounds y m1 h0 (by omega)
  rw [if_neg (show ¬ m1 = 11 by omega)] at hsum
  by_cases hnext : m1 + 1 = m2
  · subst hnext
    unfold daysFromCivil
    omega
  · obtain ⟨_, hb1⟩ := daysBeforeMonth_bounds (m1 + 1) (by omega) (by omega)
    obtain ⟨hb2, _⟩ := daysBeforeMonth_bounds m2 (by omega) h2
    unfold daysFromCivil
    have ha : (if isleap y = true ∧ 2 ≤ m1 + 1 then (1 : Int) else 0) ≤ 1 := by
      split_ifs <;> omega
    have hc : (0 : Int) ≤ (if isleap y = true ∧ 2 ≤ m2 then (1 : Int) else 0) := by
      split_ifs <;> omega
    omega

/-- The instant `calcDateDST` returns for a valid rule lies in the month of the rule,
or up to one hour before it when the unassigned `tm_isdst` is positive. -/
theorem calcDateDST_in_month (rule : RuleDST) (year isdst : Int) (hv : validRule rule) :
    daysFromCivil year rule.month 1 * 86400 - isdstShift isdst ≤ calcDateDST rule year isdst
      ∧ calcDateDST rule year isdst
          ≤ (daysFromCivil year rule.month 1 + daysInMonth year rule.month - 1) * 86400
              + 82800 := by
  obtain ⟨hk0, hk4, hw0, hw1, hm0, hm1, hh0, hh1⟩ := hv
  obtain ⟨hd28, _, _⟩ := daysInMonth_bounds year rule.month hm0 hm1
  have hshift := isdstShift_cases isdst
  by_cases hweek : rule.week = 0
  · rw [calcDateDST_last_any rule year isdst hweek hw0 hw1 hm0 hm1]
    obtain ⟨ho0, ho6, _⟩ := weekdayOffset_spec rule.wday
      (((daysFromCivil year rule.month 1 + daysInMonth year rule.month) * 86400
          + rule.hour * 3600 - isdstShift isdst) / 86400) hw0 hw1
    constructor <;> omega
  · rw [calcDateDST_nth_any rule year isdst (by omega) hk4 hw0 hw1 hm0 hm1]
    obtain ⟨ho0, ho6, _⟩ := weekdayOffset_spec rule.wday
      ((daysFromCivil year rule.month 1 * 86400 + rule.hour * 3600 - isdstShift isdst)
        / 86400) hw0 hw1
    constructor <;> omega

/-- Southern rules, whatever the unassigned `tm_isdst` holds: for valid rules whose
enter month is later than the exit month and whose enter offset is at least the exit
offset, the window `beginDST` computes, for any year, has utcSTD ≤ utcDST, so that
`summerTime` is false for every UTC instant; utcSTD < utcDST when the call for the
enter rule finds a `tm_isdst` that is not positive. -/
theorem southern_window_never_daylight (s : NTP) (g : Unassigned) (tm : Tm)
    (hcur : s.current = some tm)
    (hstart : validRule s.dstStart) (hend : validRule s.dstEnd)
    (hmonth : s.dstEnd.month < s.dstStart.month)
    (hoff : s.dstEnd.tzOffset ≤ s.dstStart.tzOffset) :
    (beginDST s g).utcSTD ≤ (beginDST s g).utcDST
      ∧ (g.enter ≤ 0 → (beginDST s g).utcSTD < (beginDST s g).utcDST)
      ∧ ∀ u : Int, summerTime { beginDST s g with utcCurrent := u } = false := by
  obtain ⟨h1, _⟩ := calcDateDST_in_month s.dstStart (tm.tm_year + 1900) g.enter hstart
  obtain ⟨_, h2⟩ := calcDateDST_in_month s.dstEnd (tm.tm_year + 1900) g.exit hend
  have hm := month_before (tm.tm_year + 1900) s.dstEnd.month s.dstStart.month hend.2.2.2.2.1
    hmonth hstart.2.2.2.2.2.1
  have hshift := isdstShift_cases g.enter
  have hle : (beginDST s g).utcSTD ≤ (beginDST s g).utcDST := by
    simp only [beginDST, hcur, SECS_PER_MINUTES]
    omega
  refine ⟨hle, fun hg => ?_, fun u => ?_⟩
  · have h0 := isdstShift_of_nonpos g.enter hg
    simp only [beginDST, hcur, SECS_PER_MINUTES]
    omega
  · cases hsum : summerTime { beginDST s g with utcCurrent := u }
    · rfl
    · exfalso
      have := (summerTime_true _).mp hsum
      simp only at this
      omega

/-- Daylight time from the first Sunday of October (+660 min) to the first Sunday of
April (+600 min), year 2024, with 1 found in `tm_isdst` by both calls. -/
theorem southern_window_never_daylight_witness :
    (beginDST sydneyObject ⟨1, 1⟩).utcSTD ≤ (beginDST sydneyObject ⟨1, 1⟩).utcDST
      ∧ ∀ u : Int, summerTime { beginDST sydneyObject ⟨1, 1⟩ with utcCurrent := u } = false :=
  have h := southern_window_never_daylight sydneyObject ⟨1, 1⟩ (gmtime 1718452800) rfl
    (by decide) (by decide) (by decide) (by decide)
  ⟨h.1, h.2.2⟩

/-- C19, the code at a failing input: the enter rule is the first Monday of October at
00:00, the exit rule the last Monday of September at 23:00, both offsets are +600
minutes and the year is 2024; the call of `calcDateDST` for the enter rule finds 1 in
the unassigned `tm.tm_isdst`, the call for the exit rule finds 0. Both rules are valid,
the enter month is later and the offsets are equal, and `beginDST` stores utcDST =
utcSTD = 1727701200: the enter instant is not greater than the exit instant. With 0
found by both calls the enter instant is 1728223200. -/
theorem southern_window_enter_equals_exit :
    (mondayObject.dstStart, mondayObject.dstEnd)
      = (⟨"DST".toList, 1, 1, 9, 0, 600⟩, ⟨"STD".toList, 0, 1, 8, 23, 600⟩)
    ∧ ((beginDST mondayObject ⟨1, 0⟩).yearDST, (beginDST mondayObject ⟨1, 0⟩).utcDST,
        (beginDST mondayObject ⟨1, 0⟩).utcSTD) = (2024, 1727701200, 1727701200)
    ∧ ¬ (beginDST mondayObject ⟨1, 0⟩).utcDST > (beginDST mondayObject ⟨1, 0⟩).utcSTD
    ∧ ((beginDST mondayObject ⟨0, 0⟩).utcDST, (beginDST mondayObject ⟨0, 0⟩).utcSTD)
        = (1728223200, 1727701200) := by
  refine ⟨?_, ?_, ?_, ?_⟩ <;> decide

/-! ## The throttle, the request and the reply size -/

/-- C14: if lastUpdate is non-zero and (tick - lastUpdate) mod 2^32 is below the
interval, `update` returns false, leaves the object as it was and sends nothing; in
every other case it returns what `ntpUpdate` returns. -/
theorem update_throttle (fuel : Nat) (s : NTP) (w : World) :
    (s.lastUpdate ≠ 0 → sub32 (millis w) s.lastUpdate < s.interval →
        update fuel s w = some (false, s, tick w) ∧ (tick w).sent = w.sent)
      ∧ (¬ (s.lastUpdate ≠ 0 ∧ sub32 (millis w) s.lastUpdate < s.interval) →
        update fuel s w = ntpUpdate fuel s (tick w)) := by
  unfold update
  constructor
  · intro h0 hlt
    rw [if_neg (by omega)]
    exact ⟨rfl, rfl⟩
  · intro h
    rw [if_pos (by omega)]

/-- C14, at a concrete input: synchronised at tick 1000 with interval 60000, `update`
at tick 60999 does nothing and at tick 61000 is `ntpUpdate`. -/
theorem update_throttle_witness :
    (update 9 syncedObject (worldOf (fun _ => 60999) (fun _ => []))
        = some (false, syncedObject, tick (worldOf (fun _ => 60999) (fun _ => [])))
      ∧ (tick (worldOf (fun _ => 60999) (fun _ => []))).sent
          = (worldOf (fun _ => 60999) (fun _ => [])).sent)
      ∧ update 9 syncedObject (worldOf (fun _ => 61000) (fun _ => []))
          = ntpUpdate 9 syncedObject (tick (worldOf (fun _ => 61000) (fun _ => []))) :=
  ⟨(update_throttle 9 syncedObject (worldOf (fun _ => 60999) (fun _ => []))).1 (by decide)
      (by decide),
    (update_throttle 9 syncedObject (worldOf (fun _ => 61000) (fun _ => []))).2 (by decide)⟩

/-- C15, a counterexample: no reply ever arrives; two calls of `update` in a row on
an object that never synchronised (interval 60000) each time out and each send a
request: two requests are out while `millis()` has only reached 4000. -/
theorem updates_resend_after_timeout :
    (updates 2 9 fresh silentWorld).map
        (fun r => (r.2.sent.length, r.1.lastUpdate, r.1.interval, r.2.ticks, millis r.2))
      = some (2, 0, 60000, 10, 4000) := by
  decide

/-- Calls of `update` within the interval: once a reply has been accepted (lastUpdate
non-zero), calls of `update` at ticks less than one interval after lastUpdate send no
request and leave the object as it was, however many they are. -/
theorem updates_idle (n : Nat) :
    ∀ (fuel : Nat) (s : NTP) (w : World), s.lastUpdate ≠ 0 →
      (∀ i, i < n → sub32 (w.clock (w.ticks + i) % UINT32) s.lastUpdate < s.interval) →
      updates n fuel s w = some (s, { w with ticks := w.ticks + n }) := by
  induction n with
  | zero =>
    intro fuel s w _ _
    rfl
  | succ n ih =>
    intro fuel s w hlast hwithin
    have h0 : sub32 (millis w) s.lastUpdate < s.interval := by
      simpa [millis] using hwithin 0 (by omega)
    have hu : update fuel s w = some (false, s, tick w) := by
      unfold update
      rw [if_neg (by omega)]
    simp only [updates, hu]
    rw [ih fuel s (tick w) hlast (by
      intro i hi
      have := hwithin (i + 1) (by omega)
      simpa [tick, Nat.add_assoc, Nat.add_comm 1 i] using this)]
    simp [tick, Nat.add_assoc, Nat.add_comm 1 n]

/-- C15, amended: once a reply has been accepted (lastUpdate non-zero), calls of
`update` at ticks less than one interval after lastUpdate send no request and leave
the object as it was, however many they are and whatever the transport holds; a call
made while lastUpdate is zero, or an interval or more after lastUpdate, is a call of
`ntpUpdate`: it returns when a poll times out or sees 48, and it has then sent one
request, the request buffer of the object. -/
theorem updates_within_interval (fuel : Nat) (s : NTP) (w : World) :
    (∀ n : Nat, s.lastUpdate ≠ 0 →
        (∀ i, i < n → sub32 (w.clock (w.ticks + i) % UINT32) s.lastUpdate < s.interval) →
        updates n fuel s w = some (s, { w with ticks := w.ticks + n })
          ∧ ({ w with ticks := w.ticks + n } : World).sent = w.sent)
      ∧ ((s.lastUpdate = 0 ∨ s.interval ≤ sub32 (millis w) s.lastUpdate) →
          update fuel s w = ntpUpdate fuel s (tick w)
            ∧ (∀ (b : Bool) (s1 : NTP) (w1 : World), update fuel s w = some (b, s1, w1) →
                w1.sent = w.sent ++ [s.ntpRequest])
            ∧ (∀ j : Nat, j < fuel →
                (elapsedAt (tick w) j > 1000 ∨ sizeAt (tick w) j = 48) →
                ∃ (b : Bool) (s1 : NTP) (w1 : World), update fuel s w = some (b, s1, w1)
                  ∧ w1.sent = w.sent ++ [s.ntpRequest])) := by
  constructor
  · intro n hlast hwithin
    exact ⟨updates_idle n fuel s w hlast hwithin, rfl⟩
  · intro hdue
    have hu : update fuel s w = ntpUpdate fuel s (tick w) := by
      unfold update
      rw [if_pos (by omega)]
    refine ⟨hu, ?_, ?_⟩
    · intro b s1 w1 h
      rw [hu] at h
      exact (ntpUpdate_frame fuel s (tick w) b s1 w1 h).2
    · intro j hfuel hstop
      obtain ⟨b, s1, w1, h⟩ := ntpUpdate_returns fuel s (tick w) j hfuel hstop
      exact ⟨b, s1, w1, hu.trans h, (ntpUpdate_frame fuel s (tick w) b s1 w1 h).2⟩

/-- C15 amended, at a concrete input: three calls at ticks 2000, 2010, 2020 after a
sync at tick 1000 send nothing; a call on the object that never synchronised, with no
reply arriving, returns and has sent the request. -/
theorem updates_within_interval_witness :
    (updates 3 9 syncedObject (worldOf (fun k => 2000 + 10 * k) (fun _ => []))
        = some (syncedObject,
            { worldOf (fun k => 2000 + 10 * k) (fun _ => []) with
              ticks := (worldOf (fun k => 2000 + 10 * k) (fun _ => [])).ticks + 3 })
      ∧ ({ worldOf (fun k => 2000 + 10 * k) (fun _ => []) with
            ticks := (worldOf (fun k => 2000 + 10 * k) (fun _ => [])).ticks + 3 } : World).sent
          = (worldOf (fun k => 2000 + 10 * k) (fun _ => [])).sent)
      ∧ ∃ (b : Bool) (s1 : NTP) (w1 : World), update 9 fresh silentWorld = some (b, s1, w1)
          ∧ w1.sent = silentWorld.sent ++ [fresh.ntpRequest] :=
  ⟨(updates_within_interval 9 syncedObject
      (worldOf (fun k => 2000 + 10 * k) (fun _ => []))).1 3 (by decide) (by decide),
    ((updates_within_interval 9 fresh silentWorld).2 (by decide)).2.2 2 (by decide)
      (by decide)⟩

/-- C16: when `init` returns (some poll of its `ntpUpdate` times out or sees 48), the
request buffer holds 0b11100011, 0, 6, 0xEC, eight zeros, the characters 1 N 1 4 (49,
0x4E, 49, 52) and 32 zeros, whatever it held before. -/
theorem init_request_template (fuel : Nat) (s : NTP) (w : World) (g1 g2 : Unassigned)
    (j : Nat) (hfuel : j < fuel) (hstop : elapsedAt w j > 1000 ∨ sizeAt w j = 48) :
    ∃ (s1 : NTP) (w1 : World), init fuel s w g1 g2 = some (s1, w1)
      ∧ s1.ntpRequest
          = [0b11100011, 0, 6, 0xEC, 0, 0, 0, 0, 0, 0, 0, 0, 49, 0x4E, 49, 52]
              ++ List.replicate 32 0
      ∧ (s1.ntpRequest.drop 12).take 4 = ['1', 'N', '1', '4'].map Char.toNat
      ∧ s1.ntpRequest.length = 48 := by
  obtain ⟨b, s1, w1, h⟩ := ntpUpdate_returns fuel { s with ntpRequest := requestTemplate } w j
    hfuel hstop
  obtain ⟨hf, _⟩ := ntpUpdate_frame fuel _ w b s1 w1 h
  have hreq : s1.ntpRequest = requestTemplate := by rw [hf]
  have hfin : ∀ x : NTP, x.ntpRequest = requestTemplate →
      x.ntpRequest = [0b11100011, 0, 6, 0xEC, 0, 0, 0, 0, 0, 0, 0, 0, 49, 0x4E, 49, 52]
            ++ List.replicate 32 0
        ∧ (x.ntpRequest.drop 12).take 4 = ['1', 'N', '1', '4'].map Char.toNat
        ∧ x.ntpRequest.length = 48 := by
    intro x hx
    rw [hx]
    decide
  rw [init_eq fuel s w g1 g2 b s1 w1 h]
  split_ifs
  · refine ⟨_, _, rfl, hfin _ ?_⟩
    rw [beginDST_frame, currentTime_frame]
    exact hreq
  · exact ⟨_, _, rfl, hfin _ hreq⟩

/-- C16, at a concrete input: `init` on the fresh object with a reply on the third
poll. -/
theorem init_request_template_witness :
    ∃ (s1 : NTP) (w1 : World), init 5 fresh juneWorld ⟨0, 0⟩ ⟨0, 0⟩ = some (s1, w1)
      ∧ s1.ntpRequest
          = [0b11100011, 0, 6, 0xEC, 0, 0, 0, 0, 0, 0, 0, 0, 49, 0x4E, 49, 52]
              ++ List.replicate 32 0
      ∧ (s1.ntpRequest.drop 12).take 4 = ['1', 'N', '1', '4'].map Char.toNat
      ∧ s1.ntpRequest.length = 48 :=
  init_request_template 5 fresh juneWorld ⟨0, 0⟩ ⟨0, 0⟩ 2 (by decide) (by decide)

set_option maxRecDepth 8000 in
/-- C17, the code at a failing input: the transport reports a datagram of 304 bytes;
`uint8_t size` holds 304 mod 256 = 48, the loop is left, the first 48 bytes are parsed
and the anchor is set (utcTime 1718452800, lastUpdate 102); `ntpUpdate` returns true. -/
theorem ntpUpdate_accepts_304_bytes :
    ((oversizeWorld.datagram 0).length,
      (ntpUpdate 3 fresh oversizeWorld).map (fun r => (r.1, r.2.1.utcTime, r.2.1.lastUpdate)))
      = (304, some (true, 1718452800, 102)) := by
  decide

/-- C20: with DST enabled and both rules configured, `init` (when it returns) leaves
timezoneOffset = exit offset * 60 and dstOffset = (enter offset - exit offset) * 60
whatever was passed to `timeZone` before, and the local time `currentTime` then
derives is UTC + enter offset * 60 when `summerTime` holds for the instant and UTC +
exit offset * 60 otherwise; all this whatever the unassigned `tm_isdst` holds. -/
theorem init_overrides_timeZone (fuel : Nat) (s : NTP) (w : World) (g1 g2 : Unassigned)
    (j : Nat) (tzHours tzMinutes : Int) (hfuel : j < fuel)
    (hstop : elapsedAt w j > 1000 ∨ sizeAt w j = 48) (hz : s.dstZone = true)
    (hd : s.dstRuleConfigured = true) (hs : s.stdRuleConfigured = true) :
    ∃ (s1 : NTP) (w1 : World),
      init fuel (timeZone s tzHours tzMinutes) w g1 g2 = some (s1, w1)
      ∧ s1.timezoneOffset = s.dstEnd.tzOffset * 60
      ∧ s1.dstOffset = (s.dstStart.tzOffset - s.dstEnd.tzOffset) * 60
      ∧ ∀ (v : World) (g : Unassigned),
          (currentTime s1 v g).1.localTime
            = (currentTime s1 v g).1.utcCurrent
              + (if summerTime { s1 with utcCurrent := (currentTime s1 v g).1.utcCurrent }
                    = true
                 then s.dstStart.tzOffset * 60 else s.dstEnd.tzOffset * 60) := by
  have hz1 : (timeZone s tzHours tzMinutes).dstZone = true := by
    unfold timeZone
    split_ifs <;> exact hz
  have hd1 : (timeZone s tzHours tzMinutes).dstRuleConfigured = true := by
    unfold timeZone
    split_ifs <;> exact hd
  have hs1 : (timeZone s tzHours tzMinutes).stdRuleConfigured = true := by
    unfold timeZone
    split_ifs <;> exact hs
  have hr1 : (timeZone s tzHours tzMinutes).dstStart = s.dstStart := by
    unfold timeZone
    split_ifs <;> rfl
  have hr2 : (timeZone s tzHours tzMinutes).dstEnd = s.dstEnd := by
    unfold timeZone
    split_ifs <;> rfl
  generalize timeZone s tzHours tzMinutes = s0 at hz1 hd1 hs1 hr1 hr2
  obtain ⟨b, s1, w1, h⟩ := ntpUpdate_returns fuel { s0 with ntpRequest := requestTemplate } w j
    hfuel hstop
  obtain ⟨hf, _⟩ := ntpUpdate_frame fuel _ w b s1 w1 h
  have hflags : (s0.dstZone && s0.dstRuleConfigured && s0.stdRuleConfigured) = true := by
    simp [hz1, hd1, hs1]
  rw [init_eq fuel s0 w g1 g2 b s1 w1 h, if_pos hflags, hr1, hr2]
  have hfin : ∀ x : NTP, x.timezoneOffset = s.dstEnd.tzOffset * 60 →
      x.dstOffset = (s.dstStart.tzOffset - s.dstEnd.tzOffset) * 60 → x.dstZone = true →
      x.dstRuleConfigured = true → x.stdRuleConfigured = true →
      x.timezoneOffset = s.dstEnd.tzOffset * 60
        ∧ x.dstOffset = (s.dstStart.tzOffset - s.dstEnd.tzOffset) * 60
        ∧ ∀ (v : World) (g : Unassigned),
          (currentTime x v g).1.localTime
            = (currentTime x v g).1.utcCurrent
              + (if summerTime { x with utcCurrent := (currentTime x v g).1.utcCurrent }
                    = true
                 then s.dstStart.tzOffset * 60 else s.dstEnd.tzOffset * 60) := by
    intro x ht ho hxz hxd hxs
    refine ⟨ht, ho, fun v g => ?_⟩
    obtain ⟨hu, hl, _⟩ := currentTime_derived x v g
    rw [hl, hu]
    simp only [localAt, hxz, hxd, hxs, Bool.and_self, if_true, ht, ho]
    split_ifs <;> omega
  have g1 : s1.dstZone = true := by rw [hf]; exact hz1
  have g2 : s1.dstRuleConfigured = true := by rw [hf]; exact hd1
  have g3 : s1.stdRuleConfigured = true := by rw [hf]; exact hs1
  refine ⟨_, _, rfl, hfin _ ?_ ?_ ?_ ?_ ?_⟩
  · rw [beginDST_frame, currentTime_frame]
  · rw [beginDST_frame, currentTime_frame]
  · rw [beginDST_frame, currentTime_frame]
    exact g1
  · rw [beginDST_frame, currentTime_frame]
    exact g2
  · rw [beginDST_frame, currentTime_frame]
    exact g3

/-- C20, at a concrete input: `timeZone(5, 30)` before `init` on the central European
object: offsets 3600 and 3600, local time UTC + 7200 or UTC + 3600. -/
theorem init_overrides_timeZone_witness :
    ∃ (s1 : NTP) (w1 : World),
      init 5 (timeZone cetObject 5 30) juneWorld ⟨0, 0⟩ ⟨1, 0⟩ = some (s1, w1)
      ∧ s1.timezoneOffset = 3600 ∧ s1.dstOffset = 3600
      ∧ ∀ (v : World) (g : Unassigned),
          (currentTime s1 v g).1.localTime
            = (currentTime s1 v g).1.utcCurrent
              + (if summerTime { s1 with utcCurrent := (currentTime s1 v g).1.utcCurrent }
                    = true
                 then 7200 else 3600) :=
  init_overrides_timeZone 5 cetObject juneWorld ⟨0, 0⟩ ⟨1, 0⟩ 2 5 30 (by decide) (by decide)
    rfl rfl rfl

end NTPClient
